import Mathlib

/-!
# pixelrain: periodic timer and falling droplet

A shallow embedding of `src/pixelrain/timer.h` and `src/pixelrain/droplet.h`.

* `unsigned long` values are naturals below `2 ^ w`, `unsigned int` values are
  naturals below `2 ^ u`; every arithmetic operation of the source is followed
  by the reduction the C++ type performs.
* The two ambient collaborators, the Arduino clock `millis()` and the FastLED
  generator `random8(lim)`, are answered by an environment `Env` holding the
  whole future sequence of their return values, together with the number of
  calls made so far.
* An integer division by zero is undefined behaviour in the source; the
  embedding returns `none` there.
-/

namespace Pixelrain

/-- The outside world: `clock k` is what the `k`-th call of `millis()` reads,
`rand k` is what the `k`-th call of `random8` returns; `ticks` and `draws`
count the calls already made. -/
structure Env where
  clock : Nat → Nat
  ticks : Nat
  rand : Nat → Nat
  draws : Nat

/-- Arduino `millis()`: an `unsigned long`, so the reading wraps at `2 ^ w`. -/
def millis (w : Nat) (e : Env) : Nat × Env :=
  (e.clock e.ticks % 2 ^ w, { e with ticks := e.ticks + 1 })

/-- FastLED `random8(lim)`: a `uint8_t` taken from the generator.  The library
promises a result below `lim`; that promise is a hypothesis of the theorems
that rely on it, it is not built into the value. -/
def random8 (_lim : Nat) (e : Env) : Nat × Env :=
  (e.rand e.draws % 256, { e with draws := e.draws + 1 })

/-- The two fields of `class Timer`. -/
structure Timer where
  last_tic_ : Nat
  period_ms_ : Nat
deriving DecidableEq, Repr

/-- Method `Timer::set_period`: `period_ms_ = period_ms; last_tic_ = millis();`. -/
def Timer.set_period (w : Nat) (period_ms : Nat) (t : Timer) (e : Env) : Timer × Env :=
  let t1 := { t with period_ms_ := period_ms }
  let r := millis w e
  ({ t1 with last_tic_ := r.1 }, r.2)

/-- The constructor `Timer::Timer(period_ms)`: calls `set_period` on the fresh object, which
assigns both fields. -/
def Timer.new (w : Nat) (period_ms : Nat) (e : Env) : Timer × Env :=
  Timer.set_period w period_ms { last_tic_ := 0, period_ms_ := 0 } e

/-- Method `Timer::tictoc`.  `elapsed = tic - last_tic_` is an unsigned subtraction;
`elapsed % period_ms_` with a zero period is a division by zero (`none`). -/
def Timer.tictoc (w : Nat) (t : Timer) (e : Env) : Option (Bool × Timer × Env) :=
  let r := millis w e
  let tic := r.1
  let elapsed := (tic + 2 ^ w - t.last_tic_) % 2 ^ w
  if elapsed < t.period_ms_ then
    some (false, t, r.2)
  else if t.period_ms_ = 0 then
    none
  else
    some (true, { t with last_tic_ := (tic + 2 ^ w - elapsed % t.period_ms_) % 2 ^ w }, r.2)

/-- The fields of `class Droplet`. -/
structure Droplet where
  rows_ : Nat
  row_ : Nat
  col_ : Nat
  timer_ : Timer
  min_wait_before_respawn_ : Nat
  max_wait_before_respawn_ : Nat
  min_fall_period_ : Nat
  max_fall_period_ : Nat
deriving DecidableEq, Repr

/-- The constructor `Droplet::Droplet`.  Members are initialised in declaration order, so
`timer_(min_wait_before_respawn_)` runs before `min_wait_before_respawn_` has
been given its value: the timer's period is whatever that member holds at that
moment, the indeterminate value `uninit`. -/
def Droplet.new (w : Nat) (col rows min_wait_before_respawn max_wait_before_respawn
    min_fall_period max_fall_period : Nat) (uninit : Nat) (e : Env) : Droplet × Env :=
  let r := Timer.new w uninit e
  ({ rows_ := rows
     row_ := rows
     col_ := col
     timer_ := r.1
     min_wait_before_respawn_ := min_wait_before_respawn
     max_wait_before_respawn_ := max_wait_before_respawn
     min_fall_period_ := min_fall_period
     max_fall_period_ := max_fall_period }, r.2)

/-- Accessor `Droplet::row`. -/
def Droplet.row (d : Droplet) : Nat := d.row_

/-- Accessor `Droplet::col`. -/
def Droplet.col (d : Droplet) : Nat := d.col_

/-- Accessor `Droplet::visible`: `row_ < rows_`. -/
def Droplet.visible (d : Droplet) : Bool := decide (d.row_ < d.rows_)

/-- Static method `Droplet::rand_range`:
`min_value + random8(steps) * (max_value - min_value) / steps`, every operation
in `unsigned long`; dividing by `steps == 0` is undefined (`none`). -/
def Droplet.rand_range (w : Nat) (min_value max_value steps : Nat) (e : Env) :
    Option (Nat × Env) :=
  let r := random8 steps e
  let diff := (max_value + 2 ^ w - min_value) % 2 ^ w
  let prod := (r.1 * diff) % 2 ^ w
  if steps = 0 then
    none
  else
    some ((min_value + prod / steps) % 2 ^ w, r.2)

/-- Method `Droplet::update`. -/
def Droplet.update (w u : Nat) (d : Droplet) (e : Env) : Option (Droplet × Env) :=
  match Timer.tictoc w d.timer_ e with
  | none => none
  | some (false, t, e1) => some ({ d with timer_ := t }, e1)
  | some (true, t, e1) =>
    let d1 := { d with timer_ := t }
    if d1.visible then
      let d2 := { d1 with row_ := (d1.row_ + 1) % 2 ^ u }
      if !d2.visible then
        match Droplet.rand_range w d2.min_wait_before_respawn_ d2.max_wait_before_respawn_ 10 e1 with
        | none => none
        | some (p, e2) =>
          let s := Timer.set_period w p d2.timer_ e2
          some ({ d2 with timer_ := s.1 }, s.2)
      else
        some (d2, e1)
    else
      let d2 := { d1 with row_ := 0 }
      match Droplet.rand_range w d2.min_fall_period_ d2.max_fall_period_ 10 e1 with
      | none => none
      | some (p, e2) =>
        let s := Timer.set_period w p d2.timer_ e2
        some ({ d2 with timer_ := s.1 }, s.2)

/-- The driver loop: `n` successive calls of `update`. -/
def Droplet.updates (w u : Nat) : Nat → Droplet → Env → Option (Droplet × Env)
  | 0, d, e => some (d, e)
  | n + 1, d, e =>
    match Droplet.update w u d e with
    | none => none
    | some (d1, e1) => Droplet.updates w u n d1 e1

/-- A polling loop: `n` successive calls of `tictoc`, counting those that
return true. -/
def Timer.polls (w : Nat) : Nat → Timer → Env → Option (Nat × Timer × Env)
  | 0, t, e => some (0, t, e)
  | n + 1, t, e =>
    match Timer.tictoc w t e with
    | none => none
    | some (b, t1, e1) =>
      match Timer.polls w n t1 e1 with
      | none => none
      | some (c, t2, e2) => some ((if b then 1 else 0) + c, t2, e2)

/-- The value `rand_range` computes from the draw `r`. -/
def rangeValue (w min_value max_value steps r : Nat) : Nat :=
  (min_value + (r * ((max_value + 2 ^ w - min_value) % 2 ^ w)) % 2 ^ w / steps) % 2 ^ w

/-- Whether the timer fires during each of the next `n` calls of `update`. -/
def Droplet.fires (w u : Nat) : Nat → Droplet → Env → Bool
  | 0, _, _ => true
  | n + 1, d, e =>
    match Timer.tictoc w d.timer_ e with
    | some (true, _, _) =>
      (match Droplet.update w u d e with
       | some (d1, e1) => Droplet.fires w u n d1 e1
       | none => false)
    | _ => false

/-- A sample world: the clock advances by one second between two readings and
the generator cycles through `0 .. 9`. -/
def sampleEnv : Env :=
  { clock := fun k => 1000 * (k + 1), ticks := 0, rand := fun k => k % 10, draws := 0 }

/-- A sample droplet: column 3 of a grid of height 2, waiting 100..200 ms
before a respawn and falling one row every 50..60 ms, as constructed in
`sampleEnv` on a 32-bit `unsigned long` (the uninitialised member holding 100). -/
def sampleDroplet : Droplet × Env :=
  Droplet.new 32 3 2 100 200 50 60 100 sampleEnv

/-- The same droplet on a grid of height 0. -/
def flatDroplet : Droplet × Env :=
  Droplet.new 32 3 0 100 200 50 60 100 sampleEnv

/-- The sample droplet defined as a global object: static storage is zeroed
before the constructor runs, so the member read by `timer_(...)` holds 0. -/
def staticDroplet : Droplet × Env :=
  Droplet.new 32 3 2 100 200 50 60 0 sampleEnv

/-- The fields `update` never assigns: the grid height, the column and the four
bounds are the same in `d1` as in `d`. -/
def Droplet.sameConfig (d d1 : Droplet) : Prop :=
  d1.rows_ = d.rows_ ∧ d1.col_ = d.col_ ∧
  d1.min_wait_before_respawn_ = d.min_wait_before_respawn_ ∧
  d1.max_wait_before_respawn_ = d.max_wait_before_respawn_ ∧
  d1.min_fall_period_ = d.min_fall_period_ ∧
  d1.max_fall_period_ = d.max_fall_period_

/-- The generator keeps the promise of `random8(10)`: every value it returns is
below 10. -/
def Env.drawsBelowTen (e : Env) : Prop := ∀ k, e.rand k % 256 < 10

/-- A grid of at least one row and two ordered ranges, every value fitting its
C++ type. -/
def Droplet.ordered (w u : Nat) (d : Droplet) : Prop :=
  1 ≤ d.rows_ ∧ d.rows_ < 2 ^ u ∧
  d.min_wait_before_respawn_ ≤ d.max_wait_before_respawn_ ∧ d.max_wait_before_respawn_ < 2 ^ w ∧
  d.min_fall_period_ ≤ d.max_fall_period_ ∧ d.max_fall_period_ < 2 ^ w

/-- While the droplet is on the grid its timer's period lies in the fall
range. -/
def Droplet.fallPeriodOk (d : Droplet) : Prop :=
  d.row_ ≤ d.rows_ ∧
  (d.row_ < d.rows_ →
    d.min_fall_period_ ≤ d.timer_.period_ms_ ∧ d.timer_.period_ms_ ≤ d.max_fall_period_)

/-- The timer's period lies in the fall range while the droplet is visible and
in the wait range while it is not. -/
def Droplet.periodOk (d : Droplet) : Prop :=
  (d.visible = true →
    d.min_fall_period_ ≤ d.timer_.period_ms_ ∧ d.timer_.period_ms_ ≤ d.max_fall_period_) ∧
  (d.visible = false →
    d.min_wait_before_respawn_ ≤ d.timer_.period_ms_ ∧
    d.timer_.period_ms_ ≤ d.max_wait_before_respawn_)

/-- The world as seen during one call made at time `now`: every reading of
the clock within the call returns `now`. -/
def Env.freeze (e : Env) (now : Nat) : Env :=
  { e with clock := fun _ => now }

/-- The driver loop polled once per millisecond: `n` calls of `update`, made at
the times `start`, `start + 1`, ..., `start + n - 1`. -/
def Droplet.run (w u : Nat) : Nat → Nat → Droplet → Env → Option (Droplet × Env)
  | _, 0, d, e => some (d, e)
  | start, n + 1, d, e =>
    match Droplet.update w u d (e.freeze start) with
    | none => none
    | some (d1, e1) => Droplet.run w u (start + 1) n d1 e1

/-- The droplet of the scenario `rows = 8`, fall period `[50, 50]`, wait
`[100, 100]`, at row `row`, its timer last expired at time `last_tic` and set
to `period`. -/
def scenarioDroplet (w col row last_tic period : Nat) : Droplet :=
  { rows_ := 8, row_ := row, col_ := col,
    timer_ := { last_tic_ := last_tic % 2 ^ w, period_ms_ := period },
    min_wait_before_respawn_ := 100, max_wait_before_respawn_ := 100,
    min_fall_period_ := 50, max_fall_period_ := 50 }

/-- The state of the scenario droplet `j` milliseconds after a respawn at time
`T`, for `j <= 500`: falling one row every 50 ms, Idle from 400 ms on, respawned
at 500 ms. -/
def scenarioAt (w col T j : Nat) : Droplet :=
  if j < 400 then scenarioDroplet w col (j / 50) (T + 50 * (j / 50)) 50
  else if j < 500 then scenarioDroplet w col 8 (T + 400) 100
  else scenarioDroplet w col 0 (T + 500) 50

/-- The scenario droplet while Idle, with an arbitrary timer. -/
def scenarioIdle (col : Nat) (t0 : Timer) : Droplet :=
  { rows_ := 8, row_ := 8, col_ := col, timer_ := t0,
    min_wait_before_respawn_ := 100, max_wait_before_respawn_ := 100,
    min_fall_period_ := 50, max_fall_period_ := 50 }

/-- A world in which the poll at 1400 ms straddles a millisecond boundary.  The
`tictoc` of the `j`-th call of `update` (`j = 0, 1, ...`) reads `1000 + j`; the
second clock read of a call, made by `set_period`, returns the same value as
the first, except in the call made at 1400, where it returns 1401. -/
def skewEnv : Env :=
  { clock := fun k =>
      if k = 0 then 1000
      else if k ≤ 402 then 1000 + (k - 1)
      else if k ≤ 503 then 1000 + (k - 2)
      else 1000 + (k - 3),
    ticks := 0, rand := fun k => k % 10, draws := 0 }

/-- What an observer sees after `n` calls of `update` on the Idle scenario
droplet in `skewEnv`: the row, `visible()`, the timer's two fields, and the
value the next reading of the clock will return. -/
def skewView (n : Nat) : Option (Nat × Bool × Nat × Nat × Nat) :=
  (Droplet.updates 32 16 n (scenarioIdle 3 { last_tic_ := 0, period_ms_ := 100 }) skewEnv).map
    (fun r => (r.1.row, r.1.visible, r.1.timer_.last_tic_, r.1.timer_.period_ms_,
      r.2.clock r.2.ticks))

/-! ## Unsigned arithmetic -/

/-- Subtracting the origin from a wrapped sum recovers the offset. -/
theorem wrap_sub_cancel (M a d : Nat) (ha : a < M) (hd : d < M) :
    ((a + d) % M + M - a) % M = d := by
  by_cases h : a + d < M
  · rw [Nat.mod_eq_of_lt h]
    have : a + d + M - a = d + M := by omega
    rw [this, Nat.add_mod_right, Nat.mod_eq_of_lt hd]
  · have h1 : (a + d) % M = a + d - M := by
      rw [Nat.mod_eq_sub_mod (by omega), Nat.mod_eq_of_lt (by omega)]
    rw [h1]
    have : a + d - M + M - a = d := by omega
    rw [this, Nat.mod_eq_of_lt hd]

/-- A wrapped offset that is moved back by part of the offset is the origin
moved forward by the rest. -/
theorem wrap_sub_part (M a d r : Nat) (hr : r ≤ d) (hd : d < M) :
    ((a + d) % M + M - r) % M = (a + (d - r)) % M := by
  have h1 : (a + d) % M + M - r = (a + d) % M + (M - r) := by omega
  rw [h1, Nat.add_mod, Nat.mod_mod, ← Nat.add_mod]
  have h2 : a + d + (M - r) = a + (d - r) + M := by omega
  rw [h2, Nat.add_mod_right]

/-! ## Timer -/

/-- The body of `tictoc` with the clock reading written out. -/
theorem tictoc_unfold (w : Nat) (t : Timer) (e : Env) :
    Timer.tictoc w t e =
      if (e.clock e.ticks % 2 ^ w + 2 ^ w - t.last_tic_) % 2 ^ w < t.period_ms_ then
        some (false, t, { e with ticks := e.ticks + 1 })
      else if t.period_ms_ = 0 then none
      else some (true,
        { t with last_tic_ := (e.clock e.ticks % 2 ^ w + 2 ^ w -
            (e.clock e.ticks % 2 ^ w + 2 ^ w - t.last_tic_) % 2 ^ w % t.period_ms_) % 2 ^ w },
        { e with ticks := e.ticks + 1 }) := rfl

/-- The elapsed time `tictoc` computes when the clock reads
`(last_tic_ + d) mod 2 ^ w` is `d`. -/
theorem elapsed_eq (w : Nat) (t : Timer) (e : Env) (d : Nat)
    (hl : t.last_tic_ < 2 ^ w) (hd : d < 2 ^ w)
    (hc : e.clock e.ticks % 2 ^ w = (t.last_tic_ + d) % 2 ^ w) :
    (e.clock e.ticks % 2 ^ w + 2 ^ w - t.last_tic_) % 2 ^ w = d := by
  rw [hc]
  exact wrap_sub_cancel _ _ _ hl hd

/-- What `tictoc` does when the true elapsed time is `d`. -/
theorem tictoc_elapsed (w : Nat) (t : Timer) (e : Env) (d : Nat)
    (hl : t.last_tic_ < 2 ^ w) (hp : 0 < t.period_ms_) (hd : d < 2 ^ w)
    (hc : e.clock e.ticks % 2 ^ w = (t.last_tic_ + d) % 2 ^ w) :
    Timer.tictoc w t e =
      if d < t.period_ms_ then some (false, t, { e with ticks := e.ticks + 1 })
      else some (true,
        { t with last_tic_ := (t.last_tic_ + (d - d % t.period_ms_)) % 2 ^ w },
        { e with ticks := e.ticks + 1 }) := by
  rw [tictoc_unfold, elapsed_eq w t e d hl hd hc]
  by_cases h : d < t.period_ms_
  · simp [h]
  · have h0 : t.period_ms_ ≠ 0 := by omega
    simp only [h, h0, if_false]
    rw [hc, wrap_sub_part _ _ _ _ (Nat.mod_le _ _) hd]

/-- C1.  Wraparound: for a timer whose `last_tic_` is an `unsigned long`, a
period above zero and a true elapsed time `d < 2 ^ w`, when the clock reads
`(last_tic_ + d) mod 2 ^ w` the call of `tictoc` returns, and it returns true
exactly when `d >= period`, whether or not `last_tic_ + d` has passed
`2 ^ w`. -/
theorem tictoc_wraparound (w : Nat) (t : Timer) (e : Env) (d : Nat)
    (hl : t.last_tic_ < 2 ^ w) (hp : 0 < t.period_ms_) (hd : d < 2 ^ w)
    (hc : (millis w e).1 = (t.last_tic_ + d) % 2 ^ w) :
    ∃ b t1 e1, Timer.tictoc w t e = some (b, t1, e1) ∧ (b = true ↔ t.period_ms_ ≤ d) := by
  rw [tictoc_elapsed w t e d hl hp hd hc]
  by_cases h : d < t.period_ms_
  · exact ⟨false, _, _, by rw [if_pos h], by simp; omega⟩
  · exact ⟨true, _, _, by rw [if_neg h], by simp; omega⟩

/-- A clock that has wrapped: `last_tic_ = 2 ^ 32 - 10`, the clock reads `5`,
so 15 ms have passed, and a 15 ms timer fires. -/
theorem tictoc_wraparound_witness :
    ∃ b t1 e1,
      Timer.tictoc 32 { last_tic_ := 4294967286, period_ms_ := 15 }
        { clock := fun _ => 5, ticks := 0, rand := fun _ => 0, draws := 0 } = some (b, t1, e1) ∧
      (b = true ↔ 15 ≤ 15) :=
  tictoc_wraparound 32 { last_tic_ := 4294967286, period_ms_ := 15 }
    { clock := fun _ => 5, ticks := 0, rand := fun _ => 0, draws := 0 } 15
    (by decide) (by decide) (by decide) (by decide)

/-- Adding the unsigned difference back to the origin gives the reading. -/
theorem wrap_add_sub (M a n : Nat) (ha : a < M) (hn : n < M) :
    (a + (n + M - a) % M) % M = n := by
  by_cases h : a ≤ n
  · have h1 : n + M - a = (n - a) + M := by omega
    rw [h1, Nat.add_mod_right, Nat.mod_eq_of_lt (show n - a < M by omega)]
    have h2 : a + (n - a) = n := by omega
    rw [h2, Nat.mod_eq_of_lt hn]
  · rw [Nat.mod_eq_of_lt (show n + M - a < M by omega)]
    have h2 : a + (n + M - a) = n + M := by omega
    rw [h2, Nat.add_mod_right, Nat.mod_eq_of_lt hn]

/-- A call of `tictoc` that returns true, spelled out. -/
theorem tictoc_true (w : Nat) (t t1 : Timer) (e e1 : Env)
    (h : Timer.tictoc w t e = some (true, t1, e1)) :
    t.period_ms_ ≤ (e.clock e.ticks % 2 ^ w + 2 ^ w - t.last_tic_) % 2 ^ w ∧
    t.period_ms_ ≠ 0 ∧
    t1 = { t with last_tic_ := (e.clock e.ticks % 2 ^ w + 2 ^ w -
            (e.clock e.ticks % 2 ^ w + 2 ^ w - t.last_tic_) % 2 ^ w % t.period_ms_) % 2 ^ w } ∧
    e1 = { e with ticks := e.ticks + 1 } := by
  rw [tictoc_unfold] at h
  by_cases h1 : (e.clock e.ticks % 2 ^ w + 2 ^ w - t.last_tic_) % 2 ^ w < t.period_ms_
  · simp [h1] at h
  · by_cases h2 : t.period_ms_ = 0
    · simp [h1, h2] at h
    · simp only [h1, h2, if_false, Option.some.injEq, Prod.mk.injEq, true_and] at h
      exact ⟨by omega, h2, h.1.symm, h.2.symm⟩

/-- C2.  Drift correction: whenever `tictoc` returns true, with
`elapsed = (now - last_tic_) mod 2 ^ w`, the new `last_tic_` is
`now - (elapsed mod period)` modulo `2 ^ w`; this is the old `last_tic_` moved
forward by `elapsed - (elapsed mod period)`, which is a positive multiple of the
period; and the period field is unchanged. -/
theorem tictoc_drift_correction (w : Nat) (t t1 : Timer) (e e1 : Env)
    (hl : t.last_tic_ < 2 ^ w)
    (h : Timer.tictoc w t e = some (true, t1, e1)) :
    t1.last_tic_ =
      ((millis w e).1 + 2 ^ w -
        ((millis w e).1 + 2 ^ w - t.last_tic_) % 2 ^ w % t.period_ms_) % 2 ^ w ∧
    t1.last_tic_ =
      (t.last_tic_ + (((millis w e).1 + 2 ^ w - t.last_tic_) % 2 ^ w -
        ((millis w e).1 + 2 ^ w - t.last_tic_) % 2 ^ w % t.period_ms_)) % 2 ^ w ∧
    (∃ k, 0 < k ∧
      ((millis w e).1 + 2 ^ w - t.last_tic_) % 2 ^ w -
        ((millis w e).1 + 2 ^ w - t.last_tic_) % 2 ^ w % t.period_ms_ = k * t.period_ms_) ∧
    t1.period_ms_ = t.period_ms_ := by
  obtain ⟨hge, hp, ht1, -⟩ := tictoc_true w t t1 e e1 h
  have hM : 0 < 2 ^ w := Nat.pos_of_ne_zero (by positivity)
  have hnow : e.clock e.ticks % 2 ^ w < 2 ^ w := Nat.mod_lt _ hM
  simp only [millis]
  generalize hel : (e.clock e.ticks % 2 ^ w + 2 ^ w - t.last_tic_) % 2 ^ w = el at *
  have hel_lt : el < 2 ^ w := by rw [← hel]; exact Nat.mod_lt _ hM
  have hback : e.clock e.ticks % 2 ^ w = (t.last_tic_ + el) % 2 ^ w := by
    rw [← hel]; exact (wrap_add_sub _ _ _ hl hnow).symm
  refine ⟨by rw [ht1], ?_, ?_, by rw [ht1]⟩
  · rw [ht1]
    show (e.clock e.ticks % 2 ^ w + 2 ^ w - el % t.period_ms_) % 2 ^ w = _
    rw [hback]
    exact wrap_sub_part _ _ _ _ (Nat.mod_le _ _) hel_lt
  · refine ⟨el / t.period_ms_, Nat.div_pos hge (Nat.pos_of_ne_zero hp), ?_⟩
    have := Nat.div_add_mod el t.period_ms_
    rw [Nat.mul_comm] at this
    omega

/-- A timer of period 30 last fired at 100 and polled at 175 fires and moves
its origin to 160. -/
theorem tictoc_drift_correction_witness :
    (160 : Nat) = (175 % 2 ^ 32 + 2 ^ 32 - (175 % 2 ^ 32 + 2 ^ 32 - 100) % 2 ^ 32 % 30) % 2 ^ 32 ∧
    (160 : Nat) = (100 + ((175 % 2 ^ 32 + 2 ^ 32 - 100) % 2 ^ 32 -
        (175 % 2 ^ 32 + 2 ^ 32 - 100) % 2 ^ 32 % 30)) % 2 ^ 32 ∧
    (∃ k, 0 < k ∧
      (175 % 2 ^ 32 + 2 ^ 32 - 100) % 2 ^ 32 -
        (175 % 2 ^ 32 + 2 ^ 32 - 100) % 2 ^ 32 % 30 = k * 30) ∧
    (30 : Nat) = 30 :=
  tictoc_drift_correction 32 { last_tic_ := 100, period_ms_ := 30 }
    { last_tic_ := 160, period_ms_ := 30 }
    { clock := fun _ => 175, ticks := 0, rand := fun _ => 0, draws := 0 }
    { clock := fun _ => 175, ticks := 1, rand := fun _ => 0, draws := 0 }
    (by decide) rfl

/-- C3.  `set_period` re-arms the timer: whatever the prior state, after
`set_period(p)` with `p > 0` is called when the clock reads `now`, a `tictoc`
polled when the clock reads `(now + d) mod 2 ^ w`, `d < 2 ^ w`, returns false
when `d < p` and true when `d >= p`. -/
theorem set_period_rearms (w : Nat) (t : Timer) (e e2 : Env) (p d : Nat)
    (hp : 0 < p) (hd : d < 2 ^ w)
    (hc : (millis w e2).1 = ((millis w e).1 + d) % 2 ^ w) :
    ∃ t3 e3, Timer.tictoc w (Timer.set_period w p t e).1 e2 = some (decide (p ≤ d), t3, e3) := by
  have hM : 0 < 2 ^ w := Nat.pos_of_ne_zero (by positivity)
  have h := tictoc_elapsed w (Timer.set_period w p t e).1 e2 d (Nat.mod_lt _ hM) hp hd hc
  have hper : (Timer.set_period w p t e).1.period_ms_ = p := rfl
  rw [h, hper]
  by_cases hlt : d < p
  · rw [if_pos hlt, decide_eq_false (show ¬ p ≤ d by omega)]
    exact ⟨_, _, rfl⟩
  · rw [if_neg hlt, decide_eq_true (show p ≤ d by omega)]
    exact ⟨_, _, rfl⟩

/-- A timer about to fire on its old 10 ms period is given a 50 ms period at
time 1000; polled 49 ms later it stays silent. -/
theorem set_period_rearms_witness :
    ∃ t3 e3,
      Timer.tictoc 32
        (Timer.set_period 32 50 { last_tic_ := 991, period_ms_ := 10 }
          { clock := fun _ => 1000, ticks := 0, rand := fun _ => 0, draws := 0 }).1
        { clock := fun _ => 1049, ticks := 1, rand := fun _ => 0, draws := 0 } =
      some (decide (50 ≤ 49), t3, e3) :=
  set_period_rearms 32 { last_tic_ := 991, period_ms_ := 10 }
    { clock := fun _ => 1000, ticks := 0, rand := fun _ => 0, draws := 0 }
    { clock := fun _ => 1049, ticks := 1, rand := fun _ => 0, draws := 0 } 50 49
    (by decide) (by decide) (by decide)

/-! ## Firing rate -/

/-- One step of a quotient: adding less than the divisor raises the quotient
by one exactly when the remainder overflows the divisor. -/
theorem div_step (a D P : Nat) (hP : 0 < P) (hD : D < P) :
    (a % P + D < P → (a + D) / P = a / P) ∧
    (P ≤ a % P + D → (a + D) / P = a / P + 1 ∧ (a % P + D) % P = a % P + D - P) := by
  have hr : a % P < P := Nat.mod_lt _ hP
  have hsplit : a + D = (a % P + D) + P * (a / P) := by
    have := Nat.mod_add_div a P
    omega
  constructor
  · intro h
    rw [hsplit, Nat.add_mul_div_left _ _ hP, Nat.div_eq_of_lt h, Nat.zero_add]
  · intro h
    have h1 : a % P + D = (a % P + D - P) + P := by omega
    have h2 : (a % P + D) / P = 1 := by
      rw [h1, Nat.add_div_right _ hP, Nat.div_eq_of_lt (by omega)]
    have h3 : (a % P + D) % P = a % P + D - P := by
      rw [h1, Nat.add_mod_right, Nat.mod_eq_of_lt (by omega)]
      omega
    refine ⟨?_, h3⟩
    rw [hsplit, Nat.add_mul_div_left _ _ hP, h2, Nat.add_comm]

/-- The state of a timer of period `P` armed at `t0` after `i` polls spaced
`D` apart, and the result of `n` more polls. -/
theorem polls_from (w P D t0 : Nat) (hP : 0 < P) (hD : D < P) :
    ∀ (n i : Nat) (e : Env),
      (∀ j, j < n → e.clock (e.ticks + j) = t0 + (i + j + 1) * D) →
      t0 + (i + n) * D < 2 ^ w →
      Timer.polls w n { last_tic_ := t0 + P * (i * D / P), period_ms_ := P } e =
        some ((i + n) * D / P - i * D / P,
          { last_tic_ := t0 + P * ((i + n) * D / P), period_ms_ := P },
          { e with ticks := e.ticks + n }) := by
  intro n
  induction n with
  | zero => intro i e _ _; simp [Timer.polls]
  | succ n ih =>
    intro i e hclk hno
    have hq := Nat.div_add_mod (i * D) P
    have hr : i * D % P < P := Nat.mod_lt _ hP
    have hexp : (i + 1) * D = i * D + D := by ring
    have hexp2 : (i + (n + 1)) * D = (i + 1) * D + n * D := by ring
    have hc0 : e.clock e.ticks = t0 + (i + 1) * D := by
      have := hclk 0 (Nat.succ_pos n)
      simpa using this
    have hlt0 : t0 + (i + 1) * D < 2 ^ w := by omega
    have hlast : t0 + P * (i * D / P) < 2 ^ w := by omega
    have hd : i * D % P + D < 2 ^ w := by omega
    have hc : e.clock e.ticks % 2 ^ w =
        (t0 + P * (i * D / P) + (i * D % P + D)) % 2 ^ w := by
      rw [hc0]; congr 1; omega
    have hstep := tictoc_elapsed w { last_tic_ := t0 + P * (i * D / P), period_ms_ := P } e
      (i * D % P + D) hlast hP hd hc
    have hmono : (i + 1) * D / P ≤ (i + 1 + n) * D / P :=
      Nat.div_le_div_right (Nat.mul_le_mul_right _ (by omega))
    have hih := ih (i + 1) { e with ticks := e.ticks + 1 }
      (by
        intro j hj
        have := hclk (j + 1) (by omega)
        have e1 : e.ticks + (j + 1) = e.ticks + 1 + j := by omega
        have e2 : i + (j + 1) + 1 = i + 1 + j + 1 := by omega
        rw [e1, e2] at this
        exact this)
      (by
        have e3 : (i + 1 + n) * D = (i + (n + 1)) * D := by ring
        omega)
    have hidx : i + (n + 1) = i + 1 + n := by omega
    have hds := div_step (i * D) D P hP hD
    rw [Timer.polls, hstep]
    by_cases hfire : i * D % P + D < P
    · have hsame : (i + 1) * D / P = i * D / P := by rw [hexp]; exact hds.1 hfire
      simp only [hfire, if_true]
      rw [hsame] at hih hmono
      rw [hih, hidx]
      simp only [Bool.false_eq_true, if_false, Nat.zero_add, Option.some.injEq, Prod.mk.injEq,
        true_and]
      rw [Nat.add_assoc, Nat.add_comm 1 n]
    · have hnext := hds.2 (by omega)
      have hq1 : (i + 1) * D / P = i * D / P + 1 := by rw [hexp]; exact hnext.1
      have hnew : (t0 + P * (i * D / P) + (i * D % P + D - (i * D % P + D) % P)) % 2 ^ w =
          t0 + P * ((i + 1) * D / P) := by
        rw [hq1, hnext.2, Nat.mul_add, Nat.mul_one]
        have : t0 + P * (i * D / P) + (i * D % P + D - (i * D % P + D - P)) =
            t0 + (P * (i * D / P) + P) := by omega
        rw [this]
        apply Nat.mod_eq_of_lt
        omega
      simp only [hfire, if_false]
      rw [hnew, hih, hidx]
      simp only [if_true, Option.some.injEq, Prod.mk.injEq, true_and]
      constructor
      · omega
      · rw [Nat.add_assoc, Nat.add_comm 1 n]

/-- C4.  Firing rate: a timer armed with period `P > 0` when the clock reads
`t0` and then polled at `t0 + D`, `t0 + 2 D`, ..., `t0 + n D` with `D < P` and
no counter overflow (`t0 + n D < 2 ^ w`) returns true on exactly
`floor (n D / P)` of the `n` polls, a count within one of `n D / P`. -/
theorem polls_firing_rate (w P D t0 n : Nat) (t : Timer) (e0 e : Env)
    (hP : 0 < P) (hD : D < P) (hno : t0 + n * D < 2 ^ w)
    (harm : e0.clock e0.ticks = t0)
    (hclk : ∀ j, j < n → e.clock (e.ticks + j) = t0 + (j + 1) * D) :
    ∃ t1 e1, Timer.polls w n (Timer.set_period w P t e0).1 e = some (n * D / P, t1, e1) ∧
      n * D / P * P ≤ n * D ∧ n * D < (n * D / P + 1) * P := by
  have ht0 : t0 < 2 ^ w := by omega
  have harmed : (Timer.set_period w P t e0).1 =
      { last_tic_ := t0 + P * (0 * D / P), period_ms_ := P } := by
    simp [Timer.set_period, millis, harm, Nat.mod_eq_of_lt ht0]
  have h := polls_from w P D t0 hP hD n 0 e
    (by intro j hj; rw [hclk j hj, Nat.zero_add])
    (by rw [Nat.zero_add]; exact hno)
  rw [harmed, h]
  refine ⟨{ last_tic_ := t0 + P * ((0 + n) * D / P), period_ms_ := P },
    { e with ticks := e.ticks + n }, ?_, ?_, ?_⟩
  · simp
  · exact Nat.div_mul_le_self _ _
  · have := Nat.lt_div_mul_add hP (a := n * D)
    rw [Nat.add_mul, Nat.one_mul]
    exact this

/-- A 10 ms timer armed at 100 and polled every 3 ms fires on 2 of the first 7
polls. -/
theorem polls_firing_rate_witness :
    ∃ t1 e1,
      Timer.polls 32 7
        (Timer.set_period 32 10 { last_tic_ := 0, period_ms_ := 0 }
          { clock := fun k => 100 + k * 3, ticks := 0, rand := fun _ => 0, draws := 0 }).1
        { clock := fun k => 100 + k * 3, ticks := 1, rand := fun _ => 0, draws := 0 } =
        some (7 * 3 / 10, t1, e1) ∧
      7 * 3 / 10 * 10 ≤ 7 * 3 ∧ 7 * 3 < (7 * 3 / 10 + 1) * 10 :=
  polls_firing_rate 32 10 3 100 7 { last_tic_ := 0, period_ms_ := 0 }
    { clock := fun k => 100 + k * 3, ticks := 0, rand := fun _ => 0, draws := 0 }
    { clock := fun k => 100 + k * 3, ticks := 1, rand := fun _ => 0, draws := 0 }
    (by decide) (by decide) (by decide) rfl
    (by intro j _; show 100 + (1 + j) * 3 = 100 + (j + 1) * 3; omega)

/-! ## Droplet -/

/-- With ten steps `rand_range` always returns, consuming one draw. -/
theorem rand_range_ten (w a b : Nat) (e : Env) :
    Droplet.rand_range w a b 10 e =
      some (rangeValue w a b 10 (e.rand e.draws % 256), { e with draws := e.draws + 1 }) := rfl

/-- What `update` does once `tictoc` has returned true. -/
theorem update_fired (w u : Nat) (d : Droplet) (e : Env) (t1 : Timer) (e1 : Env)
    (h : Timer.tictoc w d.timer_ e = some (true, t1, e1)) :
    Droplet.update w u d e =
      if d.row_ < d.rows_ then
        if (d.row_ + 1) % 2 ^ u < d.rows_ then
          some ({ d with timer_ := t1, row_ := (d.row_ + 1) % 2 ^ u }, e1)
        else
          some ({ d with
                  row_ := (d.row_ + 1) % 2 ^ u
                  timer_ :=
                    { last_tic_ := e1.clock e1.ticks % 2 ^ w
                      period_ms_ := rangeValue w d.min_wait_before_respawn_
                        d.max_wait_before_respawn_ 10 (e1.rand e1.draws % 256) } },
                { e1 with ticks := e1.ticks + 1, draws := e1.draws + 1 })
      else
        some ({ d with
                row_ := 0
                timer_ :=
                  { last_tic_ := e1.clock e1.ticks % 2 ^ w
                    period_ms_ := rangeValue w d.min_fall_period_
                      d.max_fall_period_ 10 (e1.rand e1.draws % 256) } },
              { e1 with ticks := e1.ticks + 1, draws := e1.draws + 1 }) := by
  simp only [Droplet.update, h, Droplet.visible, rand_range_ten, Timer.set_period, millis]
  by_cases h1 : d.row_ < d.rows_
  · by_cases h2 : (d.row_ + 1) % 2 ^ u < d.rows_
    · simp [h1, h2]
    · simp [h1, h2]
  · simp [h1]

/-- What `update` does when `tictoc` returns false. -/
theorem update_silent (w u : Nat) (d : Droplet) (e : Env) (t1 : Timer) (e1 : Env)
    (h : Timer.tictoc w d.timer_ e = some (false, t1, e1)) :
    Droplet.update w u d e = some ({ d with timer_ := t1 }, e1) := by
  simp only [Droplet.update, h]

/-- C9.  `update` is a no-op when the timer does not fire: if
`(now - last_tic_) mod 2 ^ w < period`, the droplet returned is the droplet
given, field for field (row, col, rows, the four bounds, the timer's
`last_tic_` and period), and the environment has only had its clock read once:
no random draw is consumed. -/
theorem update_noop (w u : Nat) (d : Droplet) (e : Env)
    (h : ((millis w e).1 + 2 ^ w - d.timer_.last_tic_) % 2 ^ w < d.timer_.period_ms_) :
    Droplet.update w u d e = some (d, { e with ticks := e.ticks + 1 }) ∧
    ({ e with ticks := e.ticks + 1 } : Env).draws = e.draws := by
  have ht : Timer.tictoc w d.timer_ e = some (false, d.timer_, { e with ticks := e.ticks + 1 }) := by
    rw [tictoc_unfold]
    exact if_pos h
  exact ⟨update_silent w u d e _ _ ht, rfl⟩

/-- A timer polled 5 ms after its last expiry with a 100 ms period: the update
returns the droplet and only the clock has been read. -/
theorem update_noop_witness :
    Droplet.update 32 16 sampleDroplet.1
        { clock := fun _ => 1005, ticks := 7, rand := fun k => k % 10, draws := 4 } =
      some (sampleDroplet.1,
        { clock := fun _ => 1005, ticks := 7 + 1, rand := fun k => k % 10, draws := 4 }) ∧
    (4 : Nat) = 4 :=
  update_noop 32 16 sampleDroplet.1
    { clock := fun _ => 1005, ticks := 7, rand := fun k => k % 10, draws := 4 } (by decide)

/-- C7 as stated fails on a grid of height 0: the freshly constructed droplet
is Idle (`row_ = rows_ = 0`), its timer fires, and after `update` the row is 0
but `visible()` is false. -/
theorem idle_transition_counterexample :
    flatDroplet.1.row_ = flatDroplet.1.rows_ ∧
    (Timer.tictoc 32 flatDroplet.1.timer_ flatDroplet.2).map (fun r => r.1) = some true ∧
    (Droplet.update 32 16 flatDroplet.1 flatDroplet.2).map
      (fun r => (r.1.row_, r.1.visible)) = some (0, false) := by
  refine ⟨rfl, rfl, rfl⟩

/-- C7, amended.  For every droplet in the Idle state (`row_ = rows_`), when
the timer fires during `update`: the call returns, afterwards `row_ = 0`, the
timer's period is the value `rand_range(min_fall_period, max_fall_period, 10)`
returns for the draw taken, the timer's `last_tic_` is the clock reading taken
by `set_period`, the other fields are unchanged, and the droplet is visible
exactly when the grid has at least one row. -/
theorem update_idle (w u : Nat) (d : Droplet) (e : Env) (t1 : Timer) (e1 : Env)
    (hidle : d.row_ = d.rows_)
    (hfire : Timer.tictoc w d.timer_ e = some (true, t1, e1)) :
    ∃ d1 e2 e3,
      Droplet.update w u d e = some (d1, e3) ∧
      d1.row_ = 0 ∧
      (d1.visible = true ↔ 0 < d.rows_) ∧
      Droplet.rand_range w d.min_fall_period_ d.max_fall_period_ 10 e1 =
        some (d1.timer_.period_ms_, e2) ∧
      d1.timer_.last_tic_ = (millis w e2).1 ∧ e3 = (millis w e2).2 ∧
      d1 = { d with row_ := 0, timer_ := d1.timer_ } := by
  have hnot : ¬ d.row_ < d.rows_ := by omega
  rw [update_fired w u d e t1 e1 hfire, if_neg hnot, rand_range_ten]
  refine ⟨_, _, _, rfl, rfl, ?_, rfl, rfl, rfl, rfl⟩
  simp [Droplet.visible]

/-- The sample droplet, Idle after construction, respawns at row 0 on its first
update. -/
theorem update_idle_witness :
    ∃ d1 e2 e3,
      Droplet.update 32 16 sampleDroplet.1 sampleDroplet.2 = some (d1, e3) ∧
      d1.row_ = 0 ∧
      (d1.visible = true ↔ 0 < sampleDroplet.1.rows_) ∧
      Droplet.rand_range 32 sampleDroplet.1.min_fall_period_ sampleDroplet.1.max_fall_period_ 10
          { sampleEnv with ticks := 2 } = some (d1.timer_.period_ms_, e2) ∧
      d1.timer_.last_tic_ = (millis 32 e2).1 ∧ e3 = (millis 32 e2).2 ∧
      d1 = { sampleDroplet.1 with row_ := 0, timer_ := d1.timer_ } :=
  update_idle 32 16 sampleDroplet.1 sampleDroplet.2
    { last_tic_ := 2000, period_ms_ := 100 } { sampleEnv with ticks := 2 } rfl rfl

/-- C8.  Falling transition: for every droplet in the Falling state
(`row_ < rows_`, `rows_` an `unsigned int`), when the timer fires during
`update` the call returns and the row has increased by exactly 1.  If the new
row is still below `rows_`, the timer is the one `tictoc` left, with the period
unchanged, and no draw is taken.  If the new row equals `rows_`, the droplet is
Idle, the timer's period is the value
`rand_range(min_wait_before_respawn, max_wait_before_respawn, 10)` returns for
the draw taken and its `last_tic_` is the clock reading taken by
`set_period`. -/
theorem update_falling (w u : Nat) (d : Droplet) (e : Env) (t1 : Timer) (e1 : Env)
    (hfall : d.row_ < d.rows_) (hrows : d.rows_ < 2 ^ u)
    (hfire : Timer.tictoc w d.timer_ e = some (true, t1, e1)) :
    ∃ d1 e3,
      Droplet.update w u d e = some (d1, e3) ∧
      d1.row_ = d.row_ + 1 ∧
      d1 = { d with row_ := d.row_ + 1, timer_ := d1.timer_ } ∧
      (d1.row_ < d.rows_ →
        d1.timer_.period_ms_ = d.timer_.period_ms_ ∧ d1.timer_ = t1 ∧ e3 = e1) ∧
      (d1.row_ = d.rows_ →
        d1.visible = false ∧
        ∃ e2, Droplet.rand_range w d.min_wait_before_respawn_ d.max_wait_before_respawn_ 10 e1 =
            some (d1.timer_.period_ms_, e2) ∧
          d1.timer_.last_tic_ = (millis w e2).1 ∧ e3 = (millis w e2).2) := by
  have hmod : (d.row_ + 1) % 2 ^ u = d.row_ + 1 := Nat.mod_eq_of_lt (by omega)
  have hper : t1.period_ms_ = d.timer_.period_ms_ := by
    rw [(tictoc_true w d.timer_ t1 e e1 hfire).2.2.1]
  rw [update_fired w u d e t1 e1 hfire, if_pos hfall, hmod, rand_range_ten]
  by_cases hnext : d.row_ + 1 < d.rows_
  · rw [if_pos hnext]
    refine ⟨_, _, rfl, rfl, rfl, fun _ => ⟨hper, rfl, rfl⟩, fun h => ?_⟩
    exact absurd h (Nat.ne_of_lt hnext)
  · rw [if_neg hnext]
    refine ⟨_, _, rfl, rfl, rfl, fun h => absurd h hnext, fun _ => ⟨?_, _, rfl, rfl, rfl⟩⟩
    simp [Droplet.visible]
    omega

/-- A droplet on the last row of a grid of height 2 whose 100 ms timer has run
out leaves the grid. -/
theorem update_falling_witness :
    ∃ d1 e3,
      Droplet.update 32 16 { sampleDroplet.1 with row_ := 1 } sampleDroplet.2 = some (d1, e3) ∧
      d1.row_ = 1 + 1 ∧
      d1 = { sampleDroplet.1 with row_ := 1 + 1, timer_ := d1.timer_ } ∧
      (d1.row_ < 2 →
        d1.timer_.period_ms_ = 100 ∧ d1.timer_ = { last_tic_ := 2000, period_ms_ := 100 } ∧
        e3 = { sampleEnv with ticks := 2 }) ∧
      (d1.row_ = 2 →
        d1.visible = false ∧
        ∃ e2, Droplet.rand_range 32 100 200 10 { sampleEnv with ticks := 2 } =
            some (d1.timer_.period_ms_, e2) ∧
          d1.timer_.last_tic_ = (millis 32 e2).1 ∧ e3 = (millis 32 e2).2) :=
  update_falling 32 16 { sampleDroplet.1 with row_ := 1 } sampleDroplet.2
    { last_tic_ := 2000, period_ms_ := 100 } { sampleEnv with ticks := 2 }
    (by decide) (by decide) rfl

/-! ## Row invariant and cycle -/

/-- One `update` keeps `row_ <= rows_` and never changes `rows_`. -/
theorem update_row_le (w u : Nat) (d : Droplet) (e : Env) (d1 : Droplet) (e1 : Env)
    (hinv : d.row_ ≤ d.rows_) (hrows : d.rows_ < 2 ^ u)
    (h : Droplet.update w u d e = some (d1, e1)) :
    d1.row_ ≤ d1.rows_ ∧ d1.rows_ = d.rows_ := by
  cases htt : Timer.tictoc w d.timer_ e with
  | none => simp [Droplet.update, htt] at h
  | some r =>
    obtain ⟨b, t1, e2⟩ := r
    cases b with
    | false =>
      rw [update_silent w u d e t1 e2 htt] at h
      simp only [Option.some.injEq, Prod.mk.injEq] at h
      rw [← h.1]
      exact ⟨hinv, rfl⟩
    | true =>
      rw [update_fired w u d e t1 e2 htt] at h
      by_cases h1 : d.row_ < d.rows_
      · have hmod : (d.row_ + 1) % 2 ^ u = d.row_ + 1 := Nat.mod_eq_of_lt (by omega)
        rw [if_pos h1, hmod] at h
        by_cases h2 : d.row_ + 1 < d.rows_
        · rw [if_pos h2] at h
          simp only [Option.some.injEq, Prod.mk.injEq] at h
          rw [← h.1]
          exact ⟨Nat.le_of_lt h2, rfl⟩
        · rw [if_neg h2] at h
          simp only [Option.some.injEq, Prod.mk.injEq] at h
          rw [← h.1]
          exact ⟨h1, rfl⟩
      · rw [if_neg h1] at h
        simp only [Option.some.injEq, Prod.mk.injEq] at h
        rw [← h.1]
        exact ⟨Nat.zero_le _, rfl⟩

/-- Any number of `update` calls keeps `row_ <= rows_` and `rows_`. -/
theorem updates_row_le (w u : Nat) :
    ∀ (n : Nat) (d : Droplet) (e : Env) (d1 : Droplet) (e1 : Env),
      d.row_ ≤ d.rows_ → d.rows_ < 2 ^ u →
      Droplet.updates w u n d e = some (d1, e1) →
      d1.row_ ≤ d1.rows_ ∧ d1.rows_ = d.rows_ := by
  intro n
  induction n with
  | zero =>
    intro d e d1 e1 hinv _ h
    simp only [Droplet.updates, Option.some.injEq, Prod.mk.injEq] at h
    rw [← h.1]
    exact ⟨hinv, rfl⟩
  | succ n ih =>
    intro d e d1 e1 hinv hrows h
    cases hu : Droplet.update w u d e with
    | none => simp [Droplet.updates, hu] at h
    | some r =>
      obtain ⟨d2, e2⟩ := r
      simp only [Droplet.updates, hu] at h
      obtain ⟨hle, heq⟩ := update_row_le w u d e d2 e2 hinv hrows hu
      obtain ⟨hle1, heq1⟩ := ih d2 e2 d1 e1 hle (by rw [heq]; exact hrows) h
      exact ⟨hle1, by rw [heq1, heq]⟩

/-- C5.  Row invariant: in every state reached from construction (grid height
an `unsigned int`) by any number of `update` calls, under any clock readings and
any random draws, `row_ <= rows_`, `visible()` is true exactly when
`row_ < rows_` and false exactly when `row_ = rows_`, and whenever the droplet
is visible `row_ + 1` still fits in an `unsigned int`, so `row_++` does not
overflow. -/
theorem row_invariant (w u col rows min_wait max_wait min_fall max_fall uninit : Nat)
    (e0 : Env) (n : Nat) (d : Droplet) (e : Env)
    (hrows : rows < 2 ^ u)
    (hrun : Droplet.updates w u n
      (Droplet.new w col rows min_wait max_wait min_fall max_fall uninit e0).1
      (Droplet.new w col rows min_wait max_wait min_fall max_fall uninit e0).2 = some (d, e)) :
    d.rows_ = rows ∧ d.row_ ≤ d.rows_ ∧
    (d.visible = true ↔ d.row_ < d.rows_) ∧
    (d.visible = false ↔ d.row_ = d.rows_) ∧
    (d.visible = true → d.row_ + 1 < 2 ^ u ∧ (d.row_ + 1) % 2 ^ u = d.row_ + 1) := by
  obtain ⟨hle, heq⟩ := updates_row_le w u n _ _ d e (Nat.le_refl rows) hrows hrun
  have heq2 : d.rows_ = rows := heq
  have hvis : d.visible = true ↔ d.row_ < d.rows_ := by simp [Droplet.visible]
  refine ⟨heq2, hle, hvis, ?_, ?_⟩
  · rw [← Bool.not_eq_true, hvis]
    omega
  · intro hv
    have hlt := hvis.1 hv
    have hb : d.row_ + 1 < 2 ^ u := by omega
    exact ⟨hb, Nat.mod_eq_of_lt hb⟩

/-- The sample droplet after three updates: it has fallen through both rows
and is Idle again. -/
theorem row_invariant_witness :
    (2 : Nat) = 2 ∧ (2 : Nat) ≤ 2 ∧
    (Droplet.visible
        { rows_ := 2, row_ := 2, col_ := 3, timer_ := { last_tic_ := 6000, period_ms_ := 110 },
          min_wait_before_respawn_ := 100, max_wait_before_respawn_ := 200,
          min_fall_period_ := 50, max_fall_period_ := 60 } = true ↔ 2 < 2) ∧
    (Droplet.visible
        { rows_ := 2, row_ := 2, col_ := 3, timer_ := { last_tic_ := 6000, period_ms_ := 110 },
          min_wait_before_respawn_ := 100, max_wait_before_respawn_ := 200,
          min_fall_period_ := 50, max_fall_period_ := 60 } = false ↔ 2 = 2) ∧
    (Droplet.visible
        { rows_ := 2, row_ := 2, col_ := 3, timer_ := { last_tic_ := 6000, period_ms_ := 110 },
          min_wait_before_respawn_ := 100, max_wait_before_respawn_ := 200,
          min_fall_period_ := 50, max_fall_period_ := 60 } = true →
      2 + 1 < 2 ^ 16 ∧ (2 + 1) % 2 ^ 16 = 2 + 1) :=
  row_invariant 32 16 3 2 100 200 50 60 100 sampleEnv 3
    { rows_ := 2, row_ := 2, col_ := 3, timer_ := { last_tic_ := 6000, period_ms_ := 110 },
      min_wait_before_respawn_ := 100, max_wait_before_respawn_ := 200,
      min_fall_period_ := 50, max_fall_period_ := 60 }
    { sampleEnv with ticks := 6, draws := 2 } (by decide) rfl

/-- An update during which the timer fires moves the row one step round the
cycle `0, 1, ..., rows_`. -/
theorem update_fired_row (w u : Nat) (d : Droplet) (e : Env) (t1 : Timer) (e1 : Env)
    (hinv : d.row_ ≤ d.rows_) (hrows : d.rows_ < 2 ^ u)
    (hfire : Timer.tictoc w d.timer_ e = some (true, t1, e1)) :
    ∃ d1 e2, Droplet.update w u d e = some (d1, e2) ∧
      d1.row_ = (d.row_ + 1) % (d.rows_ + 1) ∧ d1.rows_ = d.rows_ := by
  rw [update_fired w u d e t1 e1 hfire]
  by_cases h1 : d.row_ < d.rows_
  · have hmod : (d.row_ + 1) % 2 ^ u = d.row_ + 1 := Nat.mod_eq_of_lt (by omega)
    have hcyc : (d.row_ + 1) % (d.rows_ + 1) = d.row_ + 1 := Nat.mod_eq_of_lt (by omega)
    rw [if_pos h1, hmod, hcyc]
    by_cases h2 : d.row_ + 1 < d.rows_
    · rw [if_pos h2]; exact ⟨_, _, rfl, rfl, rfl⟩
    · rw [if_neg h2]; exact ⟨_, _, rfl, rfl, rfl⟩
  · have heq : d.row_ = d.rows_ := by omega
    rw [if_neg h1, heq, Nat.mod_self]
    exact ⟨_, _, rfl, rfl, rfl⟩

/-- While the timer fires on every call, `k` updates move the row `k` steps
round the cycle. -/
theorem fires_updates (w u : Nat) :
    ∀ (k : Nat) (d : Droplet) (e : Env),
      d.row_ ≤ d.rows_ → d.rows_ < 2 ^ u → Droplet.fires w u k d e = true →
      ∃ d1 e1, Droplet.updates w u k d e = some (d1, e1) ∧
        d1.row_ = (d.row_ + k) % (d.rows_ + 1) ∧ d1.rows_ = d.rows_ := by
  intro k
  induction k with
  | zero =>
    intro d e hinv _ _
    exact ⟨d, e, rfl, (Nat.mod_eq_of_lt (by omega)).symm, rfl⟩
  | succ k ih =>
    intro d e hinv hrows hf
    cases htt : Timer.tictoc w d.timer_ e with
    | none => simp [Droplet.fires, htt] at hf
    | some r =>
      obtain ⟨b, t1, e1⟩ := r
      cases b with
      | false => simp [Droplet.fires, htt] at hf
      | true =>
        obtain ⟨d2, e2, hu, hrow, hrs⟩ := update_fired_row w u d e t1 e1 hinv hrows htt
        simp only [Droplet.fires, htt, hu] at hf
        have hle2 : d2.row_ ≤ d2.rows_ := by
          rw [hrow, hrs]
          exact Nat.le_of_lt_succ (Nat.mod_lt _ (Nat.succ_pos _))
        obtain ⟨d3, e3, hus, hrow3, hrs3⟩ := ih d2 e2 hle2 (by rw [hrs]; exact hrows) hf
        refine ⟨d3, e3, ?_, ?_, by rw [hrs3, hrs]⟩
        · simp only [Droplet.updates, hu]
          exact hus
        · rw [hrow3, hrow, hrs, Nat.mod_add_mod]
          congr 1
          omega

/-- C6.  Droplet cycle: a droplet constructed with grid height `R` (an
`unsigned int`) starts with `row() = R`, invisible; if the timer fires on each of the
first `k` calls of `update`, those `k` calls return and leave
`row() = (R + k) mod (R + 1)`, which never exceeds `R`. -/
theorem droplet_cycle (w u col R min_wait max_wait min_fall max_fall uninit : Nat)
    (e0 : Env) (k : Nat) (hR : R < 2 ^ u)
    (hf : Droplet.fires w u k
      (Droplet.new w col R min_wait max_wait min_fall max_fall uninit e0).1
      (Droplet.new w col R min_wait max_wait min_fall max_fall uninit e0).2 = true) :
    (Droplet.new w col R min_wait max_wait min_fall max_fall uninit e0).1.row = R ∧
    (Droplet.new w col R min_wait max_wait min_fall max_fall uninit e0).1.visible = false ∧
    ∃ d e, Droplet.updates w u k
        (Droplet.new w col R min_wait max_wait min_fall max_fall uninit e0).1
        (Droplet.new w col R min_wait max_wait min_fall max_fall uninit e0).2 = some (d, e) ∧
      d.row = (R + k) % (R + 1) ∧ d.row ≤ R := by
  obtain ⟨d, e, hu, hrow, -⟩ := fires_updates w u k _ _ (Nat.le_refl R) hR hf
  refine ⟨rfl, by simp [Droplet.visible, Droplet.new], d, e, hu, hrow, ?_⟩
  show d.row_ ≤ R
  rw [hrow]
  exact Nat.le_of_lt_succ (Nat.mod_lt _ (Nat.succ_pos _))

/-- The sample droplet, whose timer fires on each of its first four updates,
goes `2, 0, 1, 2, 0`. -/
theorem droplet_cycle_witness :
    (Droplet.new 32 3 2 100 200 50 60 100 sampleEnv).1.row = 2 ∧
    (Droplet.new 32 3 2 100 200 50 60 100 sampleEnv).1.visible = false ∧
    ∃ d e, Droplet.updates 32 16 4
        (Droplet.new 32 3 2 100 200 50 60 100 sampleEnv).1
        (Droplet.new 32 3 2 100 200 50 60 100 sampleEnv).2 = some (d, e) ∧
      d.row = (2 + 4) % (2 + 1) ∧ d.row ≤ 2 :=
  droplet_cycle 32 16 3 2 100 200 50 60 100 sampleEnv 4 (by decide) rfl

/-! ## Randomised periods -/

/-- The bounds of `rangeValue` for ten steps and an ordered range. -/
theorem rangeValue_bound (w a b r : Nat) (hb : b < 2 ^ w) (hab : a ≤ b) (hr : r < 10) :
    a ≤ rangeValue w a b 10 r ∧ rangeValue w a b 10 r ≤ a + 9 * (b - a) / 10 ∧
    (a < b → rangeValue w a b 10 r < b) := by
  have hdiff : (b + 2 ^ w - a) % 2 ^ w = b - a := by
    have h1 : b + 2 ^ w - a = (b - a) + 2 ^ w := by omega
    rw [h1, Nat.add_mod_right, Nat.mod_eq_of_lt (show b - a < 2 ^ w by omega)]
  have hprod : (r * (b - a)) % 2 ^ w ≤ 9 * (b - a) :=
    Nat.le_trans (Nat.mod_le _ _) (Nat.mul_le_mul_right _ (by omega))
  have hq : (r * (b - a)) % 2 ^ w / 10 ≤ 9 * (b - a) / 10 := Nat.div_le_div_right hprod
  have hval : rangeValue w a b 10 r = a + (r * (b - a)) % 2 ^ w / 10 := by
    unfold rangeValue
    rw [hdiff]
    exact Nat.mod_eq_of_lt (by omega)
  rw [hval]
  refine ⟨by omega, by omega, fun h => by omega⟩

/-- C10 as stated fails for a degenerate range: with `min = max = 5` (and the
draw 0) `rand_range(5, 5, 10)` returns 5, which is not below `max`. -/
theorem rand_range_bound_counterexample :
    (5 : Nat) ≤ 5 ∧ (random8 10 sampleEnv).1 < 10 ∧
    (Droplet.rand_range 32 5 5 10 sampleEnv).map (fun r => (r.1, decide (r.1 < 5))) =
      some (5, false) := by
  refine ⟨by decide, by decide, rfl⟩

/-- C10, amended.  For every `min <= max` (both `unsigned long`) and every draw
in `[0, 10)`, `rand_range(min, max, 10)` returns a value in
`[min, min + 9 * (max - min) / 10]`, and that value is strictly below `max`
whenever `min < max`. -/
theorem rand_range_bound (w min_value max_value : Nat) (e : Env)
    (hmax : max_value < 2 ^ w) (hle : min_value ≤ max_value)
    (hdraw : (random8 10 e).1 < 10) :
    ∃ v e1, Droplet.rand_range w min_value max_value 10 e = some (v, e1) ∧
      min_value ≤ v ∧ v ≤ min_value + 9 * (max_value - min_value) / 10 ∧
      (min_value < max_value → v < max_value) := by
  rw [rand_range_ten]
  exact ⟨_, _, rfl, rangeValue_bound w min_value max_value _ hmax hle hdraw⟩

/-- The draw 7 on the range `[100, 200]` gives 170. -/
theorem rand_range_bound_witness :
    ∃ v e1,
      Droplet.rand_range 32 100 200 10 { sampleEnv with draws := 7 } = some (v, e1) ∧
      100 ≤ v ∧ v ≤ 100 + 9 * (200 - 100) / 10 ∧ (100 < 200 → v < 200) :=
  rand_range_bound 32 100 200 { sampleEnv with draws := 7 } (by decide) (by decide) (by decide)

/-! ## Construction -/

/-- The droplet a constructor call returns: Idle, with the timer's period taken
from the member that has not been initialised yet, not from the argument. -/
theorem new_fields (w col rows min_wait max_wait min_fall max_fall uninit : Nat) (e : Env) :
    (Droplet.new w col rows min_wait max_wait min_fall max_fall uninit e).1 =
      { rows_ := rows, row_ := rows, col_ := col,
        timer_ := { last_tic_ := e.clock e.ticks % 2 ^ w, period_ms_ := uninit },
        min_wait_before_respawn_ := min_wait, max_wait_before_respawn_ := max_wait,
        min_fall_period_ := min_fall, max_fall_period_ := max_fall } ∧
    (Droplet.new w col rows min_wait max_wait min_fall max_fall uninit e).2 =
      { e with ticks := e.ticks + 1 } := ⟨rfl, rfl⟩

/-- C11.  The code at `Droplet d(3, 2, 100, 200, 50, 60)` defined as a global:
the droplet is Idle (`row_ = rows_ = 2`) and the argument 100 is stored in
`min_wait_before_respawn_`, but the timer's period is 0, the content of that
member when `timer_` was initialised, and the first `update` divides by zero. -/
theorem constructor_period_not_min_wait :
    staticDroplet.1.row_ = staticDroplet.1.rows_ ∧
    staticDroplet.1.min_wait_before_respawn_ = 100 ∧
    staticDroplet.1.timer_.period_ms_ = 0 ∧
    staticDroplet.1.timer_.period_ms_ ≠ staticDroplet.1.min_wait_before_respawn_ ∧
    Droplet.update 32 16 staticDroplet.1 staticDroplet.2 = none := by
  refine ⟨rfl, rfl, rfl, by decide, rfl⟩

/-! ## Zero period and repeated polls -/

/-- C13.  Zero period: `tictoc` divides by zero exactly when the period is 0,
whatever the clock and `last_tic_` are. -/
theorem tictoc_zero_period (w : Nat) (t : Timer) (e : Env) :
    Timer.tictoc w t e = none ↔ t.period_ms_ = 0 := by
  rw [tictoc_unfold]
  constructor
  · intro h
    by_cases h1 : (e.clock e.ticks % 2 ^ w + 2 ^ w - t.last_tic_) % 2 ^ w < t.period_ms_
    · simp [h1] at h
    · by_cases h2 : t.period_ms_ = 0
      · exact h2
      · simp [h1, h2] at h
  · intro h
    simp [h]

/-- The unsigned difference between a reading and that reading moved back by
`r` is `r`. -/
theorem wrap_sub_sub (M n r : Nat) (hn : n < M) (hr : r < M) :
    (n + M - (n + M - r) % M) % M = r := by
  by_cases h : r ≤ n
  · have h1 : n + M - r = (n - r) + M := by omega
    rw [h1, Nat.add_mod_right, Nat.mod_eq_of_lt (show n - r < M by omega)]
    have h2 : n + M - (n - r) = r + M := by omega
    rw [h2, Nat.add_mod_right, Nat.mod_eq_of_lt hr]
  · rw [Nat.mod_eq_of_lt (show n + M - r < M by omega)]
    have h2 : n + M - (n + M - r) = r := by omega
    rw [h2, Nat.mod_eq_of_lt hr]

/-- C14.  No retroactive fires: for every timer with a period above zero on
which at least one period has elapsed (however many), `tictoc` returns true, and
a second `tictoc` at the same clock reading returns false and leaves the timer
as the first call left it. -/
theorem tictoc_no_retroactive (w : Nat) (t : Timer) (e e2 : Env)
    (hp : 0 < t.period_ms_)
    (hel : t.period_ms_ ≤ ((millis w e).1 + 2 ^ w - t.last_tic_) % 2 ^ w)
    (hsame : (millis w e2).1 = (millis w e).1) :
    ∃ t1 e1, Timer.tictoc w t e = some (true, t1, e1) ∧
      Timer.tictoc w t1 e2 = some (false, t1, (millis w e2).2) := by
  have hM : 0 < 2 ^ w := Nat.pos_of_ne_zero (by positivity)
  have hel1 : t.period_ms_ ≤ (e.clock e.ticks % 2 ^ w + 2 ^ w - t.last_tic_) % 2 ^ w := hel
  have hsame1 : e2.clock e2.ticks % 2 ^ w = e.clock e.ticks % 2 ^ w := hsame
  have hfirst : Timer.tictoc w t e = some (true,
      { t with last_tic_ := (e.clock e.ticks % 2 ^ w + 2 ^ w -
          (e.clock e.ticks % 2 ^ w + 2 ^ w - t.last_tic_) % 2 ^ w % t.period_ms_) % 2 ^ w },
      { e with ticks := e.ticks + 1 }) := by
    rw [tictoc_unfold, if_neg (by omega), if_neg (by omega)]
  refine ⟨_, _, hfirst, ?_⟩
  rw [tictoc_unfold]
  apply if_pos
  show (e2.clock e2.ticks % 2 ^ w + 2 ^ w - (e.clock e.ticks % 2 ^ w + 2 ^ w -
      (e.clock e.ticks % 2 ^ w + 2 ^ w - t.last_tic_) % 2 ^ w % t.period_ms_) % 2 ^ w) % 2 ^ w <
    t.period_ms_
  have hr : (e.clock e.ticks % 2 ^ w + 2 ^ w - t.last_tic_) % 2 ^ w % t.period_ms_ < 2 ^ w :=
    Nat.lt_of_le_of_lt (Nat.mod_le _ _) (Nat.mod_lt _ hM)
  rw [hsame1, wrap_sub_sub _ _ _ (Nat.mod_lt _ hM) hr]
  exact Nat.mod_lt _ hp

/-- A 30 ms timer last fired at 100 is polled at 175, two periods late: it fires
once, and a second poll at 175 is silent. -/
theorem tictoc_no_retroactive_witness :
    ∃ t1 e1,
      Timer.tictoc 32 { last_tic_ := 100, period_ms_ := 30 }
        { clock := fun _ => 175, ticks := 0, rand := fun _ => 0, draws := 0 } =
        some (true, t1, e1) ∧
      Timer.tictoc 32 t1 { clock := fun _ => 175, ticks := 1, rand := fun _ => 0, draws := 0 } =
        some (false, t1,
          (millis 32 { clock := fun _ => 175, ticks := 1, rand := fun _ => 0, draws := 0 }).2) :=
  tictoc_no_retroactive 32 { last_tic_ := 100, period_ms_ := 30 }
    { clock := fun _ => 175, ticks := 0, rand := fun _ => 0, draws := 0 }
    { clock := fun _ => 175, ticks := 1, rand := fun _ => 0, draws := 0 }
    (by decide) (by decide) (by decide)

/-! ## Degenerate ranges and candidate values -/

/-- On a range reduced to one value the draw has no effect. -/
theorem rangeValue_same (w v steps r : Nat) (hv : v < 2 ^ w) :
    rangeValue w v v steps r = v := by
  have hM : 0 < 2 ^ w := Nat.pos_of_ne_zero (by positivity)
  have h1 : v + 2 ^ w - v = 2 ^ w := by omega
  unfold rangeValue
  rw [h1, Nat.mod_self, Nat.mul_zero, Nat.zero_mod, Nat.zero_div, Nat.add_zero,
    Nat.mod_eq_of_lt hv]

/-- C17.  Degenerate range: for every `unsigned long` value `v`, every draw and
every `steps > 0`, `rand_range(v, v, steps)` returns `v`.  Hence a droplet
whose fall bounds are both `v` gets the period `v` when it respawns, and a
droplet whose wait bounds are both `v` gets the period `v` when it leaves the
grid, whatever the random source returns. -/
theorem rand_range_degenerate (w u v steps : Nat) (e : Env) (hv : v < 2 ^ w) (hs : 0 < steps) :
    Droplet.rand_range w v v steps e = some (v, (random8 steps e).2) ∧
    (∀ (d : Droplet) (e0 : Env) (t1 : Timer) (e1 : Env),
      Timer.tictoc w d.timer_ e0 = some (true, t1, e1) → d.row_ = d.rows_ →
      d.min_fall_period_ = v → d.max_fall_period_ = v →
      ∃ d1 e2, Droplet.update w u d e0 = some (d1, e2) ∧ d1.timer_.period_ms_ = v) ∧
    (∀ (d : Droplet) (e0 : Env) (t1 : Timer) (e1 : Env),
      Timer.tictoc w d.timer_ e0 = some (true, t1, e1) → d.row_ + 1 = d.rows_ →
      d.rows_ < 2 ^ u → d.min_wait_before_respawn_ = v → d.max_wait_before_respawn_ = v →
      ∃ d1 e2, Droplet.update w u d e0 = some (d1, e2) ∧ d1.timer_.period_ms_ = v) := by
  refine ⟨?_, ?_, ?_⟩
  · have h0 : steps ≠ 0 := by omega
    have hval := rangeValue_same w v steps (random8 steps e).1 hv
    unfold rangeValue at hval
    simp only [Droplet.rand_range, h0, if_false, hval]
  · intro d e0 t1 e1 hfire hidle hmin hmax
    rw [update_fired w u d e0 t1 e1 hfire, if_neg (by omega), hmin, hmax,
      rangeValue_same w v 10 _ hv]
    exact ⟨_, _, rfl, rfl⟩
  · intro d e0 t1 e1 hfire hlast hrows hmin hmax
    have hmod : (d.row_ + 1) % 2 ^ u = d.row_ + 1 := Nat.mod_eq_of_lt (by omega)
    rw [update_fired w u d e0 t1 e1 hfire, if_pos (by omega), hmod, if_neg (by omega), hmin, hmax,
      rangeValue_same w v 10 _ hv]
    exact ⟨_, _, rfl, rfl⟩

/-- The range `[50, 50]` with 10 steps and the draw 7. -/
theorem rand_range_degenerate_witness :
    Droplet.rand_range 32 50 50 10 { sampleEnv with draws := 7 } =
      some (50, (random8 10 { sampleEnv with draws := 7 }).2) ∧
    (∀ (d : Droplet) (e0 : Env) (t1 : Timer) (e1 : Env),
      Timer.tictoc 32 d.timer_ e0 = some (true, t1, e1) → d.row_ = d.rows_ →
      d.min_fall_period_ = 50 → d.max_fall_period_ = 50 →
      ∃ d1 e2, Droplet.update 32 16 d e0 = some (d1, e2) ∧ d1.timer_.period_ms_ = 50) ∧
    (∀ (d : Droplet) (e0 : Env) (t1 : Timer) (e1 : Env),
      Timer.tictoc 32 d.timer_ e0 = some (true, t1, e1) → d.row_ + 1 = d.rows_ →
      d.rows_ < 2 ^ 16 → d.min_wait_before_respawn_ = 50 → d.max_wait_before_respawn_ = 50 →
      ∃ d1 e2, Droplet.update 32 16 d e0 = some (d1, e2) ∧ d1.timer_.period_ms_ = 50) :=
  rand_range_degenerate 32 16 50 10 { sampleEnv with draws := 7 } (by decide) (by decide)

/-- Without a wrap of the product the value of `rand_range` is
`min + floor (draw * (max - min) / 10)`. -/
theorem rangeValue_exact (w a b r : Nat) (hb : b < 2 ^ w) (hab : a ≤ b)
    (hno : 9 * (b - a) < 2 ^ w) (hr : r < 10) :
    rangeValue w a b 10 r = a + r * (b - a) / 10 := by
  have hdiff : (b + 2 ^ w - a) % 2 ^ w = b - a := by
    have h1 : b + 2 ^ w - a = (b - a) + 2 ^ w := by omega
    rw [h1, Nat.add_mod_right, Nat.mod_eq_of_lt (show b - a < 2 ^ w by omega)]
  have hle : r * (b - a) ≤ 9 * (b - a) := Nat.mul_le_mul_right _ (by omega)
  have hprod : (r * (b - a)) % 2 ^ w = r * (b - a) := Nat.mod_eq_of_lt (by omega)
  have hq : r * (b - a) / 10 ≤ 9 * (b - a) / 10 := Nat.div_le_div_right hle
  unfold rangeValue
  rw [hdiff, hprod]
  exact Nat.mod_eq_of_lt (by omega)

/-- C15 as stated fails three ways.  On `[0, 5]` the draws 0 and 1 give the same
value; on `[0, 15]` the draws 0, 1, 2 give 0, 1, 3, which are not evenly spaced;
on `[0, 2 ^ 32 - 1]` the product wraps and the draws 1 and 2 give the same
value. -/
theorem rand_range_candidates_counterexample :
    ((Droplet.rand_range 32 0 5 10 { sampleEnv with draws := 0 }).map Prod.fst = some 0 ∧
     (Droplet.rand_range 32 0 5 10 { sampleEnv with draws := 1 }).map Prod.fst = some 0) ∧
    ((Droplet.rand_range 32 0 15 10 { sampleEnv with draws := 0 }).map Prod.fst = some 0 ∧
     (Droplet.rand_range 32 0 15 10 { sampleEnv with draws := 1 }).map Prod.fst = some 1 ∧
     (Droplet.rand_range 32 0 15 10 { sampleEnv with draws := 2 }).map Prod.fst = some 3) ∧
    ((Droplet.rand_range 32 0 4294967295 10 { sampleEnv with draws := 1 }).map Prod.fst =
        some 429496729 ∧
     (Droplet.rand_range 32 0 4294967295 10 { sampleEnv with draws := 2 }).map Prod.fst =
        some 429496729) := by
  refine ⟨⟨rfl, rfl⟩, ⟨rfl, rfl, rfl⟩, ⟨rfl, rfl⟩⟩

/-- C15, amended.  For every `min <= max` (both `unsigned long`) with
`9 * (max - min) < 2 ^ w`, a draw `i` in `0 .. 9` makes `rand_range(min, max, 10)`
return `min + floor (i * (max - min) / 10)`.  These ten values start at `min`
and lie in `[min, max)` when `min < max`; they are pairwise distinct exactly
when `max - min >= 10`; and they are evenly spaced, `min + i * ((max - min) / 10)`,
when `max - min` is a multiple of 10. -/
theorem rand_range_candidates (w min_value max_value : Nat)
    (hmax : max_value < 2 ^ w) (hle : min_value ≤ max_value)
    (hno : 9 * (max_value - min_value) < 2 ^ w) :
    (∀ e : Env, (random8 10 e).1 < 10 →
      Droplet.rand_range w min_value max_value 10 e =
        some (min_value + (random8 10 e).1 * (max_value - min_value) / 10, (random8 10 e).2)) ∧
    min_value + 0 * (max_value - min_value) / 10 = min_value ∧
    (min_value < max_value → ∀ i, i < 10 →
      min_value + i * (max_value - min_value) / 10 < max_value) ∧
    ((∀ i j, i < 10 → j < 10 →
        min_value + i * (max_value - min_value) / 10 =
          min_value + j * (max_value - min_value) / 10 → i = j) ↔
      10 ≤ max_value - min_value) ∧
    (10 ∣ max_value - min_value → ∀ i, i < 10 →
      min_value + i * (max_value - min_value) / 10 =
        min_value + i * ((max_value - min_value) / 10)) := by
  refine ⟨?_, by simp, ?_, ?_, ?_⟩
  · intro e hdraw
    rw [rand_range_ten]
    have := rangeValue_exact w min_value max_value _ hmax hle hno hdraw
    simp only [random8] at this ⊢
    rw [this]
  · intro hlt i hi
    have h1 : i * (max_value - min_value) ≤ 9 * (max_value - min_value) :=
      Nat.mul_le_mul_right _ (by omega)
    have h2 : i * (max_value - min_value) / 10 ≤ 9 * (max_value - min_value) / 10 :=
      Nat.div_le_div_right h1
    omega
  · constructor
    · intro hinj
      by_contra hlt
      have := hinj 0 1 (by decide) (by decide) (by omega)
      omega
    · intro hge i j hi hj heq
      interval_cases i <;> interval_cases j <;> omega
  · intro hdvd i _
    rw [Nat.mul_div_assoc _ hdvd]

/-- The range `[100, 200]`: the candidates are `100, 110, ..., 190`. -/
theorem rand_range_candidates_witness :
    (∀ e : Env, (random8 10 e).1 < 10 →
      Droplet.rand_range 32 100 200 10 e =
        some (100 + (random8 10 e).1 * (200 - 100) / 10, (random8 10 e).2)) ∧
    100 + 0 * (200 - 100) / 10 = 100 ∧
    (100 < 200 → ∀ i, i < 10 → 100 + i * (200 - 100) / 10 < 200) ∧
    ((∀ i j, i < 10 → j < 10 →
        100 + i * (200 - 100) / 10 = 100 + j * (200 - 100) / 10 → i = j) ↔
      10 ≤ 200 - 100) ∧
    (10 ∣ 200 - 100 → ∀ i, i < 10 →
      100 + i * (200 - 100) / 10 = 100 + i * ((200 - 100) / 10)) :=
  rand_range_candidates 32 100 200 (by decide) (by decide) (by decide)

/-! ## What `update` never changes -/

/-- A call of `tictoc` that returns false, spelled out. -/
theorem tictoc_false (w : Nat) (t t1 : Timer) (e e1 : Env)
    (h : Timer.tictoc w t e = some (false, t1, e1)) :
    (e.clock e.ticks % 2 ^ w + 2 ^ w - t.last_tic_) % 2 ^ w < t.period_ms_ ∧
    t1 = t ∧ e1 = { e with ticks := e.ticks + 1 } := by
  rw [tictoc_unfold] at h
  by_cases h1 : (e.clock e.ticks % 2 ^ w + 2 ^ w - t.last_tic_) % 2 ^ w < t.period_ms_
  · simp only [h1, if_true, Option.some.injEq, Prod.mk.injEq, true_and] at h
    exact ⟨h1, h.1.symm, h.2.symm⟩
  · by_cases h2 : t.period_ms_ = 0
    · simp [h1, h2] at h
    · simp [h1, h2] at h

/-- One `update` leaves the configuration and the generator's sequence alone. -/
theorem update_frame (w u : Nat) (d : Droplet) (e : Env) (d1 : Droplet) (e1 : Env)
    (h : Droplet.update w u d e = some (d1, e1)) :
    d.sameConfig d1 ∧ e1.rand = e.rand := by
  cases htt : Timer.tictoc w d.timer_ e with
  | none => simp [Droplet.update, htt] at h
  | some r =>
    obtain ⟨b, t1, e2⟩ := r
    cases b with
    | false =>
      obtain ⟨-, -, he2⟩ := tictoc_false w d.timer_ t1 e e2 htt
      rw [update_silent w u d e t1 e2 htt] at h
      simp only [Option.some.injEq, Prod.mk.injEq] at h
      rw [← h.1, ← h.2, he2]
      exact ⟨⟨rfl, rfl, rfl, rfl, rfl, rfl⟩, rfl⟩
    | true =>
      obtain ⟨-, -, -, he2⟩ := tictoc_true w d.timer_ t1 e e2 htt
      rw [update_fired w u d e t1 e2 htt] at h
      split at h
      · split at h
        · simp only [Option.some.injEq, Prod.mk.injEq] at h
          rw [← h.1, ← h.2, he2]
          exact ⟨⟨rfl, rfl, rfl, rfl, rfl, rfl⟩, rfl⟩
        · simp only [Option.some.injEq, Prod.mk.injEq] at h
          rw [← h.1, ← h.2, he2]
          exact ⟨⟨rfl, rfl, rfl, rfl, rfl, rfl⟩, rfl⟩
      · simp only [Option.some.injEq, Prod.mk.injEq] at h
        rw [← h.1, ← h.2, he2]
        exact ⟨⟨rfl, rfl, rfl, rfl, rfl, rfl⟩, rfl⟩

/-- Any number of `update` calls leaves the configuration and the generator's
sequence alone. -/
theorem updates_frame (w u : Nat) :
    ∀ (n : Nat) (d : Droplet) (e : Env) (d1 : Droplet) (e1 : Env),
      Droplet.updates w u n d e = some (d1, e1) → d.sameConfig d1 ∧ e1.rand = e.rand := by
  intro n
  induction n with
  | zero =>
    intro d e d1 e1 h
    simp only [Droplet.updates, Option.some.injEq, Prod.mk.injEq] at h
    rw [← h.1, ← h.2]
    exact ⟨⟨rfl, rfl, rfl, rfl, rfl, rfl⟩, rfl⟩
  | succ n ih =>
    intro d e d1 e1 h
    cases hu : Droplet.update w u d e with
    | none => simp [Droplet.updates, hu] at h
    | some r =>
      obtain ⟨d2, e2⟩ := r
      simp only [Droplet.updates, hu] at h
      obtain ⟨⟨a1, a2, a3, a4, a5, a6⟩, a7⟩ := update_frame w u d e d2 e2 hu
      obtain ⟨⟨b1, b2, b3, b4, b5, b6⟩, b7⟩ := ih d2 e2 d1 e1 h
      exact ⟨⟨b1.trans a1, b2.trans a2, b3.trans a3, b4.trans a4, b5.trans a5, b6.trans a6⟩,
        b7.trans a7⟩

/-! ## Grid of height zero -/

/-- C18.  Zero-height grid: every state reached from a droplet constructed with
`rows = 0` has `rows_ = 0`, `row_ = 0` and `visible()` false; and whenever the
timer fires in such a state, `update` returns after exactly one call of
`rand_range`, made with the fall bounds, whose value becomes the timer's period,
the timer being re-armed at the clock reading `set_period` takes. -/
theorem zero_rows_grid (w u col min_wait max_wait min_fall max_fall uninit : Nat)
    (e0 : Env) (n : Nat) (d : Droplet) (e : Env)
    (hrun : Droplet.updates w u n
      (Droplet.new w col 0 min_wait max_wait min_fall max_fall uninit e0).1
      (Droplet.new w col 0 min_wait max_wait min_fall max_fall uninit e0).2 = some (d, e)) :
    d.rows_ = 0 ∧ d.row_ = 0 ∧ d.visible = false ∧
    ∀ (t1 : Timer) (e1 : Env), Timer.tictoc w d.timer_ e = some (true, t1, e1) →
      ∃ d1 e2,
        Droplet.rand_range w min_fall max_fall 10 e1 = some (d1.timer_.period_ms_, e2) ∧
        Droplet.update w u d e = some (d1, (millis w e2).2) ∧
        d1.timer_.last_tic_ = (millis w e2).1 ∧
        d1.row_ = 0 ∧ d1.visible = false := by
  have hM : 0 < 2 ^ u := Nat.pos_of_ne_zero (by positivity)
  obtain ⟨hle, hrows⟩ := updates_row_le w u n _ _ d e (Nat.le_refl 0) hM hrun
  obtain ⟨⟨-, -, -, -, hminf, hmaxf⟩, -⟩ := updates_frame w u n _ _ d e hrun
  have hrows0 : d.rows_ = 0 := hrows
  have hrow0 : d.row_ = 0 := by omega
  have hminf1 : d.min_fall_period_ = min_fall := hminf
  have hmaxf1 : d.max_fall_period_ = max_fall := hmaxf
  refine ⟨hrows0, hrow0, by simp [Droplet.visible, hrows0], ?_⟩
  intro t1 e1 hfire
  rw [update_fired w u d e t1 e1 hfire, if_neg (by omega), rand_range_ten]
  refine ⟨{ d with
      row_ := 0
      timer_ := { last_tic_ := e1.clock e1.ticks % 2 ^ w
                  period_ms_ := rangeValue w d.min_fall_period_ d.max_fall_period_ 10
                    (e1.rand e1.draws % 256) } },
    { e1 with draws := e1.draws + 1 }, ?_, rfl, rfl, rfl, ?_⟩
  · rw [← hminf1, ← hmaxf1]
  · simp [Droplet.visible, hrows0]

/-- The flat sample droplet after two updates. -/
theorem zero_rows_grid_witness :
    (0 : Nat) = 0 ∧ (0 : Nat) = 0 ∧
    Droplet.visible
      { rows_ := 0, row_ := 0, col_ := 3, timer_ := { last_tic_ := 5000, period_ms_ := 51 },
        min_wait_before_respawn_ := 100, max_wait_before_respawn_ := 200,
        min_fall_period_ := 50, max_fall_period_ := 60 } = false ∧
    ∀ (t1 : Timer) (e1 : Env),
      Timer.tictoc 32 (Timer.mk 5000 51) { sampleEnv with ticks := 5, draws := 2 } =
        some (true, t1, e1) →
      ∃ d1 e2,
        Droplet.rand_range 32 50 60 10 e1 = some (d1.timer_.period_ms_, e2) ∧
        Droplet.update 32 16
          { rows_ := 0, row_ := 0, col_ := 3, timer_ := { last_tic_ := 5000, period_ms_ := 51 },
            min_wait_before_respawn_ := 100, max_wait_before_respawn_ := 200,
            min_fall_period_ := 50, max_fall_period_ := 60 }
          { sampleEnv with ticks := 5, draws := 2 } = some (d1, (millis 32 e2).2) ∧
        d1.timer_.last_tic_ = (millis 32 e2).1 ∧
        d1.row_ = 0 ∧ d1.visible = false :=
  zero_rows_grid 32 16 3 100 200 50 60 100 sampleEnv 2
    { rows_ := 0, row_ := 0, col_ := 3, timer_ := { last_tic_ := 5000, period_ms_ := 51 },
      min_wait_before_respawn_ := 100, max_wait_before_respawn_ := 200,
      min_fall_period_ := 50, max_fall_period_ := 60 }
    { sampleEnv with ticks := 5, draws := 2 } rfl

/-! ## Period ranges -/

/-- A property kept by every `update` is kept by any number of them. -/
theorem updates_induct (w u : Nat) (P : Droplet → Env → Prop)
    (hstep : ∀ d e d1 e1, P d e → Droplet.update w u d e = some (d1, e1) → P d1 e1) :
    ∀ (n : Nat) (d : Droplet) (e : Env) (d1 : Droplet) (e1 : Env),
      P d e → Droplet.updates w u n d e = some (d1, e1) → P d1 e1 := by
  intro n
  induction n with
  | zero =>
    intro d e d1 e1 hP h
    simp only [Droplet.updates, Option.some.injEq, Prod.mk.injEq] at h
    rw [← h.1, ← h.2]
    exact hP
  | succ n ih =>
    intro d e d1 e1 hP h
    cases hu : Droplet.update w u d e with
    | none => simp [Droplet.updates, hu] at h
    | some r =>
      obtain ⟨d2, e2⟩ := r
      simp only [Droplet.updates, hu] at h
      exact ih d2 e2 d1 e1 (hstep d e d2 e2 hP hu) h

/-- One `update` of a well-configured droplet: the fall-range property is kept,
the full period property is kept, and a call during which the timer fires
establishes the full property from the fall-range one. -/
theorem update_period_step (w u : Nat) (d : Droplet) (e : Env) (d1 : Droplet) (e1 : Env)
    (hc : d.ordered w u) (hdraws : e.drawsBelowTen) (hJ : d.fallPeriodOk)
    (h : Droplet.update w u d e = some (d1, e1)) :
    d1.fallPeriodOk ∧ (d.periodOk → d1.periodOk) ∧
    ((Timer.tictoc w d.timer_ e).map (fun r => r.1) = some true → d1.periodOk) := by
  obtain ⟨hr1, hru, hw, hwm, hf, hfm⟩ := hc
  obtain ⟨hle, hfall⟩ := hJ
  cases htt : Timer.tictoc w d.timer_ e with
  | none => simp [Droplet.update, htt] at h
  | some r =>
    obtain ⟨b, t1, e2⟩ := r
    cases b with
    | false =>
      obtain ⟨-, ht1, -⟩ := tictoc_false w d.timer_ t1 e e2 htt
      rw [update_silent w u d e t1 e2 htt, ht1] at h
      simp only [Option.some.injEq, Prod.mk.injEq] at h
      rw [← h.1]
      exact ⟨⟨hle, hfall⟩, fun hK => hK, fun hfire => by simp at hfire⟩
    | true =>
      obtain ⟨-, -, ht1, he2⟩ := tictoc_true w d.timer_ t1 e e2 htt
      have hper : t1.period_ms_ = d.timer_.period_ms_ := by rw [ht1]
      have hdraw : e2.rand e2.draws % 256 < 10 := by rw [he2]; exact hdraws _
      rw [update_fired w u d e t1 e2 htt] at h
      by_cases h1 : d.row_ < d.rows_
      · have hmod : (d.row_ + 1) % 2 ^ u = d.row_ + 1 := Nat.mod_eq_of_lt (by omega)
        rw [if_pos h1, hmod] at h
        by_cases h2 : d.row_ + 1 < d.rows_
        · rw [if_pos h2] at h
          simp only [Option.some.injEq, Prod.mk.injEq] at h
          rw [← h.1]
          have hK : Droplet.periodOk { d with timer_ := t1, row_ := d.row_ + 1 } := by
            refine ⟨fun _ => ?_, fun hv => ?_⟩
            · show d.min_fall_period_ ≤ t1.period_ms_ ∧ t1.period_ms_ ≤ d.max_fall_period_
              rw [hper]; exact hfall h1
            · simp [Droplet.visible] at hv
              omega
          refine ⟨⟨Nat.le_of_lt h2, fun _ => ?_⟩, fun _ => hK, fun _ => hK⟩
          show d.min_fall_period_ ≤ t1.period_ms_ ∧ t1.period_ms_ ≤ d.max_fall_period_
          rw [hper]; exact hfall h1
        · rw [if_neg h2] at h
          simp only [Option.some.injEq, Prod.mk.injEq] at h
          rw [← h.1]
          have hb := rangeValue_bound w d.min_wait_before_respawn_ d.max_wait_before_respawn_
            (e2.rand e2.draws % 256) hwm hw hdraw
          have hK : Droplet.periodOk { d with
              row_ := d.row_ + 1
              timer_ := { last_tic_ := e2.clock e2.ticks % 2 ^ w
                          period_ms_ := rangeValue w d.min_wait_before_respawn_
                            d.max_wait_before_respawn_ 10 (e2.rand e2.draws % 256) } } := by
            refine ⟨fun hv => ?_, fun _ => ?_⟩
            · simp [Droplet.visible] at hv
              omega
            · show d.min_wait_before_respawn_ ≤ rangeValue _ _ _ _ _ ∧
                rangeValue _ _ _ _ _ ≤ d.max_wait_before_respawn_
              omega
          refine ⟨⟨h1, fun hlt => ?_⟩, fun _ => hK, fun _ => hK⟩
          exact absurd hlt h2
      · rw [if_neg h1] at h
        simp only [Option.some.injEq, Prod.mk.injEq] at h
        rw [← h.1]
        have hb := rangeValue_bound w d.min_fall_period_ d.max_fall_period_
          (e2.rand e2.draws % 256) hfm hf hdraw
        have hrange : d.min_fall_period_ ≤ rangeValue w d.min_fall_period_ d.max_fall_period_ 10
            (e2.rand e2.draws % 256) ∧
            rangeValue w d.min_fall_period_ d.max_fall_period_ 10 (e2.rand e2.draws % 256) ≤
              d.max_fall_period_ := by omega
        have hK : Droplet.periodOk { d with
            row_ := 0
            timer_ := { last_tic_ := e2.clock e2.ticks % 2 ^ w
                        period_ms_ := rangeValue w d.min_fall_period_
                          d.max_fall_period_ 10 (e2.rand e2.draws % 256) } } := by
          refine ⟨fun _ => hrange, fun hv => ?_⟩
          simp [Droplet.visible] at hv
          omega
        exact ⟨⟨Nat.zero_le _, fun _ => hrange⟩, fun _ => hK, fun _ => hK⟩

/-- One `update` keeps a droplet well configured and the generator within its
promise. -/
theorem update_keeps_setting (w u : Nat) (d : Droplet) (e : Env) (d1 : Droplet) (e1 : Env)
    (hc : d.ordered w u) (hdraws : e.drawsBelowTen)
    (h : Droplet.update w u d e = some (d1, e1)) :
    d1.ordered w u ∧ e1.drawsBelowTen := by
  obtain ⟨⟨a1, -, a3, a4, a5, a6⟩, a7⟩ := update_frame w u d e d1 e1 h
  unfold Droplet.ordered at hc ⊢
  unfold Env.drawsBelowTen at hdraws ⊢
  rw [a1, a3, a4, a5, a6, a7]
  exact ⟨hc, hdraws⟩

/-- C16.  Period-range invariant: for a droplet constructed with `rows >= 1`
(an `unsigned int`) and with `min_wait <= max_wait`, `min_fall <= max_fall`
(all `unsigned long`), driven by a generator whose draws are below 10, in every
state reached after an `update` call during which the timer fired, `visible()`
implies that the timer's period lies in `[min_fall_period, max_fall_period]`
and not `visible()` implies that it lies in
`[min_wait_before_respawn, max_wait_before_respawn]`. -/
theorem period_in_range (w u col rows min_wait max_wait min_fall max_fall uninit : Nat)
    (e0 : Env) (m n : Nat) (d1 : Droplet) (e1 : Env) (d : Droplet) (e : Env)
    (hrows1 : 1 ≤ rows) (hrows : rows < 2 ^ u)
    (hw : min_wait ≤ max_wait) (hwm : max_wait < 2 ^ w)
    (hf : min_fall ≤ max_fall) (hfm : max_fall < 2 ^ w)
    (hdraws : e0.drawsBelowTen)
    (hbefore : Droplet.updates w u m
      (Droplet.new w col rows min_wait max_wait min_fall max_fall uninit e0).1
      (Droplet.new w col rows min_wait max_wait min_fall max_fall uninit e0).2 = some (d1, e1))
    (hfire : (Timer.tictoc w d1.timer_ e1).map (fun r => r.1) = some true)
    (hafter : Droplet.updates w u (n + 1) d1 e1 = some (d, e)) :
    (d.visible = true → min_fall ≤ d.timer_.period_ms_ ∧ d.timer_.period_ms_ ≤ max_fall) ∧
    (d.visible = false → min_wait ≤ d.timer_.period_ms_ ∧ d.timer_.period_ms_ ≤ max_wait) := by
  have hinit : (Droplet.new w col rows min_wait max_wait min_fall max_fall uninit e0).1.ordered w u ∧
      (Droplet.new w col rows min_wait max_wait min_fall max_fall uninit e0).2.drawsBelowTen ∧
      (Droplet.new w col rows min_wait max_wait min_fall max_fall uninit e0).1.fallPeriodOk :=
    ⟨⟨hrows1, hrows, hw, hwm, hf, hfm⟩, hdraws, Nat.le_refl rows, fun h => absurd h (Nat.lt_irrefl rows)⟩
  obtain ⟨hc1, hd1, hJ1⟩ := updates_induct w u
    (fun d e => d.ordered w u ∧ e.drawsBelowTen ∧ d.fallPeriodOk)
    (fun d e d2 e2 hP hu =>
      ⟨(update_keeps_setting w u d e d2 e2 hP.1 hP.2.1 hu).1,
       (update_keeps_setting w u d e d2 e2 hP.1 hP.2.1 hu).2,
       (update_period_step w u d e d2 e2 hP.1 hP.2.1 hP.2.2 hu).1⟩)
    m _ _ d1 e1 hinit hbefore
  cases hu : Droplet.update w u d1 e1 with
  | none => simp [Droplet.updates, hu] at hafter
  | some r =>
    obtain ⟨d2, e2⟩ := r
    simp only [Droplet.updates, hu] at hafter
    obtain ⟨hc2, hd2⟩ := update_keeps_setting w u d1 e1 d2 e2 hc1 hd1 hu
    obtain ⟨hJ2, -, hK2⟩ := update_period_step w u d1 e1 d2 e2 hc1 hd1 hJ1 hu
    obtain ⟨-, -, -, hK⟩ := updates_induct w u
      (fun d e => d.ordered w u ∧ e.drawsBelowTen ∧ d.fallPeriodOk ∧ d.periodOk)
      (fun d e d3 e3 hP hu3 =>
        ⟨(update_keeps_setting w u d e d3 e3 hP.1 hP.2.1 hu3).1,
         (update_keeps_setting w u d e d3 e3 hP.1 hP.2.1 hu3).2,
         (update_period_step w u d e d3 e3 hP.1 hP.2.1 hP.2.2.1 hu3).1,
         (update_period_step w u d e d3 e3 hP.1 hP.2.1 hP.2.2.1 hu3).2.1 hP.2.2.2⟩)
      n d2 e2 d e ⟨hc2, hd2, hJ2, hK2 hfire⟩ hafter
    obtain ⟨⟨-, -, b3, b4, b5, b6⟩, -⟩ := updates_frame w u (n + 1) d1 e1 d e
      (by simp only [Droplet.updates, hu]; exact hafter)
    obtain ⟨⟨-, -, c3, c4, c5, c6⟩, -⟩ := updates_frame w u m _ _ d1 e1 hbefore
    have k3 : d.min_wait_before_respawn_ = min_wait := b3.trans c3
    have k4 : d.max_wait_before_respawn_ = max_wait := b4.trans c4
    have k5 : d.min_fall_period_ = min_fall := b5.trans c5
    have k6 : d.max_fall_period_ = max_fall := b6.trans c6
    unfold Droplet.periodOk at hK
    rw [k3, k4, k5, k6] at hK
    exact hK

/-- The sample droplet: its timer fires on the first update, and after three
updates it is Idle with a period of 110 ms, within `[100, 200]`. -/
theorem period_in_range_witness :
    (Droplet.visible
        { rows_ := 2, row_ := 2, col_ := 3, timer_ := { last_tic_ := 6000, period_ms_ := 110 },
          min_wait_before_respawn_ := 100, max_wait_before_respawn_ := 200,
          min_fall_period_ := 50, max_fall_period_ := 60 } = true →
      50 ≤ 110 ∧ 110 ≤ 60) ∧
    (Droplet.visible
        { rows_ := 2, row_ := 2, col_ := 3, timer_ := { last_tic_ := 6000, period_ms_ := 110 },
          min_wait_before_respawn_ := 100, max_wait_before_respawn_ := 200,
          min_fall_period_ := 50, max_fall_period_ := 60 } = false →
      100 ≤ 110 ∧ 110 ≤ 200) :=
  period_in_range 32 16 3 2 100 200 50 60 100 sampleEnv 0 2
    sampleDroplet.1 sampleDroplet.2
    { rows_ := 2, row_ := 2, col_ := 3, timer_ := { last_tic_ := 6000, period_ms_ := 110 },
      min_wait_before_respawn_ := 100, max_wait_before_respawn_ := 200,
      min_fall_period_ := 50, max_fall_period_ := 60 }
    { sampleEnv with ticks := 6, draws := 2 }
    (by decide) (by decide) (by decide) (by decide) (by decide) (by decide)
    (fun k => by simp [sampleEnv]; omega) rfl rfl rfl

/-! ## Polling once per millisecond -/

/-- The last call of a run. -/
theorem run_snoc (w u : Nat) :
    ∀ (n s : Nat) (d : Droplet) (e : Env),
      Droplet.run w u s (n + 1) d e =
        match Droplet.run w u s n d e with
        | none => none
        | some (d1, e1) => Droplet.update w u d1 (e1.freeze (s + n)) := by
  intro n
  induction n with
  | zero =>
    intro s d e
    simp only [Droplet.run, Nat.add_zero]
    cases Droplet.update w u d (e.freeze s) with
    | none => rfl
    | some r => rfl
  | succ n ih =>
    intro s d e
    rw [Droplet.run]
    cases hu : Droplet.update w u d (e.freeze s) with
    | none => simp only [Droplet.run, hu]
    | some r =>
      obtain ⟨d1, e1⟩ := r
      simp only [Droplet.run, hu]
      have := ih (s + 1) d1 e1
      simp only [Droplet.run] at this
      rw [this]
      have hs : s + 1 + n = s + (n + 1) := by omega
      rw [hs]

/-- A poll made `a` ms after the timer last expired, with `a` below the
period, changes nothing in the droplet. -/
theorem update_at_quiet (w u B a : Nat) (d : Droplet) (e : Env)
    (hl : d.timer_.last_tic_ = B % 2 ^ w) (ha : a < d.timer_.period_ms_) (haw : a < 2 ^ w) :
    ∃ e1, Droplet.update w u d (e.freeze (B + a)) = some (d, e1) := by
  have hM : 0 < 2 ^ w := Nat.pos_of_ne_zero (by positivity)
  have hc : (e.freeze (B + a)).clock (e.freeze (B + a)).ticks % 2 ^ w =
      (d.timer_.last_tic_ + a) % 2 ^ w := by
    rw [hl, Nat.mod_add_mod]; rfl
  have ht := tictoc_elapsed w d.timer_ (e.freeze (B + a)) a
    (by rw [hl]; exact Nat.mod_lt _ hM) (by omega) haw hc
  rw [if_pos ha] at ht
  exact ⟨_, update_silent w u d _ _ _ ht⟩

/-- A poll made exactly one period after the timer last expired: `tictoc`
returns true and moves `last_tic_` to the time of the poll. -/
theorem tictoc_at_period (w B : Nat) (t : Timer) (e : Env)
    (hl : t.last_tic_ = B % 2 ^ w) (hp : 0 < t.period_ms_) (hpw : t.period_ms_ < 2 ^ w) :
    Timer.tictoc w t (e.freeze (B + t.period_ms_)) =
      some (true, { last_tic_ := (B + t.period_ms_) % 2 ^ w, period_ms_ := t.period_ms_ },
        { e.freeze (B + t.period_ms_) with ticks := e.ticks + 1 }) := by
  have hM : 0 < 2 ^ w := Nat.pos_of_ne_zero (by positivity)
  have hc : (e.freeze (B + t.period_ms_)).clock (e.freeze (B + t.period_ms_)).ticks % 2 ^ w =
      (t.last_tic_ + t.period_ms_) % 2 ^ w := by
    rw [hl, Nat.mod_add_mod]; rfl
  have ht := tictoc_elapsed w t (e.freeze (B + t.period_ms_)) t.period_ms_
    (by rw [hl]; exact Nat.mod_lt _ hM) hp hpw hc
  rw [if_neg (Nat.lt_irrefl _), Nat.mod_self, Nat.sub_zero, hl, Nat.mod_add_mod] at ht
  exact ht

/-- A firing poll of the scenario droplet while it stays on the grid. -/
theorem scenario_fall (w u col r B : Nat) (e : Env) (hw : 100 < 2 ^ w) (hu : 8 < 2 ^ u)
    (hr : r + 1 < 8) :
    ∃ e1, Droplet.update w u (scenarioDroplet w col r B 50) (e.freeze (B + 50)) =
      some (scenarioDroplet w col (r + 1) (B + 50) 50, e1) := by
  have htic := tictoc_at_period w B (scenarioDroplet w col r B 50).timer_ e rfl
    (show 0 < 50 by decide) (show 50 < 2 ^ w by omega)
  have hmod : (r + 1) % 2 ^ u = r + 1 := Nat.mod_eq_of_lt (by omega)
  have hupd := update_fired w u (scenarioDroplet w col r B 50) (e.freeze (B + 50)) _ _ htic
  have h1 : (scenarioDroplet w col r B 50).row_ < (scenarioDroplet w col r B 50).rows_ := by
    show r < 8
    omega
  have h2 : ((scenarioDroplet w col r B 50).row_ + 1) % 2 ^ u <
      (scenarioDroplet w col r B 50).rows_ := by
    show (r + 1) % 2 ^ u < 8
    rw [hmod]; exact hr
  rw [if_pos h1, if_pos h2] at hupd
  rw [hupd]
  simp only [Option.some.injEq, Prod.mk.injEq]
  refine ⟨_, ?_, rfl⟩
  simp only [scenarioDroplet, hmod]

/-- The firing poll that takes the scenario droplet off the grid. -/
theorem scenario_leave (w u col B : Nat) (e : Env) (hw : 100 < 2 ^ w) (hu : 8 < 2 ^ u) :
    ∃ e1, Droplet.update w u (scenarioDroplet w col 7 B 50) (e.freeze (B + 50)) =
      some (scenarioDroplet w col 8 (B + 50) 100, e1) := by
  have htic := tictoc_at_period w B (scenarioDroplet w col 7 B 50).timer_ e rfl
    (show 0 < 50 by decide) (show 50 < 2 ^ w by omega)
  have hmod : (7 + 1) % 2 ^ u = 8 := Nat.mod_eq_of_lt (by omega)
  have hrv : ∀ r, rangeValue w 100 100 10 r = 100 := fun r => rangeValue_same w 100 10 r hw
  have hupd := update_fired w u (scenarioDroplet w col 7 B 50) (e.freeze (B + 50)) _ _ htic
  have h1 : (scenarioDroplet w col 7 B 50).row_ < (scenarioDroplet w col 7 B 50).rows_ := by
    show 7 < 8
    omega
  have h2 : ¬ ((scenarioDroplet w col 7 B 50).row_ + 1) % 2 ^ u <
      (scenarioDroplet w col 7 B 50).rows_ := by
    show ¬ (7 + 1) % 2 ^ u < 8
    rw [hmod]; omega
  rw [if_pos h1, if_neg h2] at hupd
  rw [hupd]
  simp only [Option.some.injEq, Prod.mk.injEq]
  refine ⟨_, ?_, rfl⟩
  simp only [scenarioDroplet, Env.freeze, hmod, hrv]

/-- The firing poll that respawns the scenario droplet. -/
theorem scenario_respawn (w u col B : Nat) (e : Env) (hw : 100 < 2 ^ w) :
    ∃ e1, Droplet.update w u (scenarioDroplet w col 8 B 100) (e.freeze (B + 100)) =
      some (scenarioDroplet w col 0 (B + 100) 50, e1) := by
  have htic := tictoc_at_period w B (scenarioDroplet w col 8 B 100).timer_ e rfl
    (show 0 < 100 by decide) (show 100 < 2 ^ w by omega)
  have hrv : ∀ r, rangeValue w 50 50 10 r = 50 :=
    fun r => rangeValue_same w 50 10 r (show 50 < 2 ^ w by omega)
  have hupd := update_fired w u (scenarioDroplet w col 8 B 100) (e.freeze (B + 100)) _ _ htic
  have h1 : ¬ (scenarioDroplet w col 8 B 100).row_ < (scenarioDroplet w col 8 B 100).rows_ := by
    show ¬ 8 < 8
    omega
  rw [if_neg h1] at hupd
  rw [hupd]
  simp only [Option.some.injEq, Prod.mk.injEq]
  refine ⟨_, ?_, rfl⟩
  simp only [scenarioDroplet, Env.freeze, hrv]

/-- One millisecond of the scenario: the poll at `T + 1 + j` takes the state at
`j` ms after the respawn to the state at `j + 1` ms. -/
theorem scenario_step (w u col T j : Nat) (e : Env) (hw : 100 < 2 ^ w) (hu : 8 < 2 ^ u)
    (hj : j < 500) :
    ∃ e1, Droplet.update w u (scenarioAt w col T j) (e.freeze (T + 1 + j)) =
      some (scenarioAt w col T (j + 1), e1) := by
  by_cases h400 : j + 1 < 400
  · have hS : scenarioAt w col T j = scenarioDroplet w col (j / 50) (T + 50 * (j / 50)) 50 := by
      unfold scenarioAt; rw [if_pos (by omega)]
    have hS1 : scenarioAt w col T (j + 1) =
        scenarioDroplet w col ((j + 1) / 50) (T + 50 * ((j + 1) / 50)) 50 := by
      unfold scenarioAt; rw [if_pos h400]
    rw [hS, hS1]
    by_cases hedge : (j + 1) % 50 = 0
    · have hq : (j + 1) / 50 = j / 50 + 1 := by omega
      have ht : T + 1 + j = T + 50 * (j / 50) + 50 := by omega
      have hb : T + 50 * (j / 50 + 1) = T + 50 * (j / 50) + 50 := by omega
      rw [hq, ht, hb]
      exact scenario_fall w u col (j / 50) (T + 50 * (j / 50)) e hw hu (by omega)
    · have hq : (j + 1) / 50 = j / 50 := by omega
      have ht : T + 1 + j = T + 50 * (j / 50) + (j % 50 + 1) := by omega
      rw [hq, ht]
      exact update_at_quiet w u (T + 50 * (j / 50)) (j % 50 + 1) _ e rfl
        (show j % 50 + 1 < 50 by omega) (by omega)
  · by_cases h399 : j = 399
    · subst h399
      have hS : scenarioAt w col T 399 = scenarioDroplet w col 7 (T + 350) 50 := by
        unfold scenarioAt; rw [if_pos (by decide)]
      have hS1 : scenarioAt w col T (399 + 1) = scenarioDroplet w col 8 (T + 350 + 50) 100 := by
        unfold scenarioAt; rw [if_neg (by decide), if_pos (by decide)]
      have ht : T + 1 + 399 = T + 350 + 50 := by omega
      rw [hS, hS1, ht]
      exact scenario_leave w u col (T + 350) e hw hu
    · by_cases h499 : j = 499
      · subst h499
        have hS : scenarioAt w col T 499 = scenarioDroplet w col 8 (T + 400) 100 := by
          unfold scenarioAt; rw [if_neg (by decide), if_pos (by decide)]
        have hS1 : scenarioAt w col T (499 + 1) = scenarioDroplet w col 0 (T + 400 + 100) 50 := by
          unfold scenarioAt; rw [if_neg (by decide), if_neg (by decide)]
        have ht : T + 1 + 499 = T + 400 + 100 := by omega
        rw [hS, hS1, ht]
        exact scenario_respawn w u col (T + 400) e hw
      · have hS : scenarioAt w col T j = scenarioDroplet w col 8 (T + 400) 100 := by
          unfold scenarioAt; rw [if_neg (by omega), if_pos (by omega)]
        have hS1 : scenarioAt w col T (j + 1) = scenarioDroplet w col 8 (T + 400) 100 := by
          unfold scenarioAt; rw [if_neg (by omega), if_pos (by omega)]
        have ht : T + 1 + j = T + 400 + (j - 399) := by omega
        rw [hS, hS1, ht]
        exact update_at_quiet w u (T + 400) (j - 399) _ e rfl
          (show j - 399 < 100 by omega) (by omega)

/-- Polled at every millisecond after a respawn at time `T`, the scenario
droplet is in the state `scenarioAt T j` after the poll at `T + j`. -/
theorem scenario_run (w u col T : Nat) (hw : 100 < 2 ^ w) (hu : 8 < 2 ^ u) :
    ∀ (j : Nat) (e : Env), j ≤ 500 →
      ∃ e1, Droplet.run w u (T + 1) j (scenarioDroplet w col 0 T 50) e =
        some (scenarioAt w col T j, e1) := by
  intro j
  induction j with
  | zero =>
    intro e _
    refine ⟨e, ?_⟩
    have h0 : scenarioAt w col T 0 = scenarioDroplet w col 0 T 50 := by
      unfold scenarioAt; rw [if_pos (by decide)]; rfl
    rw [h0]; rfl
  | succ j ih =>
    intro e hj
    obtain ⟨e1, hrun⟩ := ih e (by omega)
    rw [run_snoc, hrun]
    exact scenario_step w u col T j e1 hw hu (by omega)

/-- The respawn of the Idle scenario droplet by a poll at time `T` during which
its timer fires. -/
theorem scenario_first (w u col T : Nat) (t0 : Timer) (e : Env) (hw : 100 < 2 ^ w)
    (hfire : (Timer.tictoc w t0 (e.freeze T)).map (fun r => r.1) = some true) :
    ∃ e1, Droplet.update w u (scenarioIdle col t0) (e.freeze T) =
      some (scenarioDroplet w col 0 T 50, e1) := by
  have hrv : ∀ r, rangeValue w 50 50 10 r = 50 :=
    fun r => rangeValue_same w 50 10 r (show 50 < 2 ^ w by omega)
  cases htt : Timer.tictoc w t0 (e.freeze T) with
  | none => simp [htt] at hfire
  | some r =>
    obtain ⟨b, t1, e2⟩ := r
    simp only [htt, Option.map_some', Option.some.injEq] at hfire
    have hb : b = true := hfire
    subst hb
    obtain ⟨-, -, -, he2⟩ := tictoc_true w t0 t1 (e.freeze T) e2 htt
    have hupd := update_fired w u (scenarioIdle col t0) (e.freeze T) t1 e2 htt
    have h1 : ¬ (scenarioIdle col t0).row_ < (scenarioIdle col t0).rows_ := by
      show ¬ 8 < 8
      omega
    rw [if_neg h1] at hupd
    rw [hupd]
    simp only [Option.some.injEq, Prod.mk.injEq]
    refine ⟨_, ?_, rfl⟩
    rw [he2]
    simp only [scenarioDroplet, scenarioIdle, Env.freeze, hrv]

/-- C12 as stated fails when the clock advances inside a call of `update`.  The
scenario droplet is polled at every millisecond from 1000 on, the `tictoc` of
the `j`-th poll reading `1000 + j`.  It respawns at 1000 and is at row 7 before
the poll at 1400; in that poll `tictoc` reads 1400 and `set_period` reads 1401,
so the 100 ms wait is armed at 1401.  After the poll at 1500 the droplet is
still invisible at row 8; it respawns in the poll at 1501. -/
theorem scenario_cycle_counterexample :
    skewView 0 = some (8, false, 0, 100, 1000) ∧
    skewView 1 = some (0, true, 1000, 50, 1001) ∧
    skewView 400 = some (7, true, 1350, 50, 1400) ∧
    skewView 401 = some (8, false, 1401, 100, 1401) ∧
    skewView 500 = some (8, false, 1401, 100, 1500) ∧
    skewView 501 = some (8, false, 1401, 100, 1501) ∧
    skewView 502 = some (0, true, 1501, 50, 1502) := by
  set_option maxRecDepth 1000000 in
  refine ⟨rfl, rfl, rfl, rfl, rfl, rfl, rfl⟩

/-- C12, amended.  Scenario `rows = 8`, fall period `[50, 50]`, wait
`[100, 100]`, polled with `update` at every millisecond, every reading of the
clock made within one call returning the time of that poll, under any sequence
of random draws: if the droplet respawns by the poll at time `T` (the timer of
the Idle droplet fires there), then after the poll at `T + 50 k + i` it is
visible at row `k`, for every `k < 8` and `i < 50`; after the poll at
`T + 400 + i`, `i < 100`, it is invisible (row 8); and the poll at `T + 500`
respawns it, leaving it at row 0 with the 50 ms timer armed at `T + 500`, the
state it had after the respawn at `T` moved by 500 ms. -/
theorem scenario_cycle (w u col T : Nat) (t0 : Timer) (e : Env)
    (hw : 100 < 2 ^ w) (hu : 8 < 2 ^ u)
    (hfire : (Timer.tictoc w t0 (e.freeze T)).map (fun r => r.1) = some true) :
    (∃ e1, Droplet.run w u T 1 (scenarioIdle col t0) e =
      some (scenarioDroplet w col 0 T 50, e1)) ∧
    (∀ k i, k < 8 → i < 50 →
      ∃ d e1, Droplet.run w u T (50 * k + i + 1) (scenarioIdle col t0) e = some (d, e1) ∧
        d.row = k ∧ d.visible = true) ∧
    (∀ i, i < 100 →
      ∃ d e1, Droplet.run w u T (400 + i + 1) (scenarioIdle col t0) e = some (d, e1) ∧
        d.row = 8 ∧ d.visible = false) ∧
    (∃ e1, Droplet.run w u T (500 + 1) (scenarioIdle col t0) e =
      some (scenarioDroplet w col 0 (T + 500) 50, e1)) := by
  obtain ⟨e1, hfirst⟩ := scenario_first w u col T t0 e hw hfire
  have hrun : ∀ j, j ≤ 500 →
      ∃ e2, Droplet.run w u T (j + 1) (scenarioIdle col t0) e =
        some (scenarioAt w col T j, e2) := by
    intro j hj
    obtain ⟨e2, h2⟩ := scenario_run w u col T hw hu j e1 hj
    exact ⟨e2, by rw [Droplet.run, hfirst]; exact h2⟩
  refine ⟨?_, ?_, ?_, ?_⟩
  · obtain ⟨e2, h2⟩ := hrun 0 (by omega)
    refine ⟨e2, ?_⟩
    rw [h2]
    unfold scenarioAt
    rw [if_pos (by decide)]
    rfl
  · intro k i hk hi
    obtain ⟨e2, h2⟩ := hrun (50 * k + i) (by omega)
    refine ⟨_, e2, h2, ?_, ?_⟩
    · unfold scenarioAt
      rw [if_pos (by omega)]
      show (50 * k + i) / 50 = k
      omega
    · unfold scenarioAt
      rw [if_pos (by omega)]
      show decide ((50 * k + i) / 50 < 8) = true
      exact decide_eq_true (by omega)
  · intro i hi
    obtain ⟨e2, h2⟩ := hrun (400 + i) (by omega)
    refine ⟨_, e2, h2, ?_, ?_⟩
    · unfold scenarioAt
      rw [if_neg (by omega), if_pos (by omega)]
      rfl
    · unfold scenarioAt
      rw [if_neg (by omega), if_pos (by omega)]
      rfl
  · obtain ⟨e2, h2⟩ := hrun 500 (by omega)
    refine ⟨e2, ?_⟩
    rw [h2]
    unfold scenarioAt
    rw [if_neg (by decide), if_neg (by decide)]

/-- The scenario on a 32-bit clock, the Idle droplet's 100 ms timer last
expired at 0 and polled from time 1000 on. -/
theorem scenario_cycle_witness :
    (∃ e1, Droplet.run 32 16 1000 1 (scenarioIdle 3 { last_tic_ := 0, period_ms_ := 100 })
        sampleEnv = some (scenarioDroplet 32 3 0 1000 50, e1)) ∧
    (∀ k i, k < 8 → i < 50 →
      ∃ d e1, Droplet.run 32 16 1000 (50 * k + i + 1)
          (scenarioIdle 3 { last_tic_ := 0, period_ms_ := 100 }) sampleEnv = some (d, e1) ∧
        d.row = k ∧ d.visible = true) ∧
    (∀ i, i < 100 →
      ∃ d e1, Droplet.run 32 16 1000 (400 + i + 1)
          (scenarioIdle 3 { last_tic_ := 0, period_ms_ := 100 }) sampleEnv = some (d, e1) ∧
        d.row = 8 ∧ d.visible = false) ∧
    (∃ e1, Droplet.run 32 16 1000 (500 + 1)
        (scenarioIdle 3 { last_tic_ := 0, period_ms_ := 100 }) sampleEnv =
      some (scenarioDroplet 32 3 0 (1000 + 500) 50, e1)) :=
  scenario_cycle 32 16 3 1000 { last_tic_ := 0, period_ms_ := 100 } sampleEnv
    (by decide) (by decide) rfl

end Pixelrain
